import Mathlib

/-!
Shallow embedding of the tlef-web-server authoring-pipeline core
(`src/routes/create`): the Quiz aggregate and its progress/status
derivation (`models/Quiz.js`), the learning-objective set and its reorder
operation, the generation-plan engine (`models/GenerationPlan.js`, the
plan routes), the material registry deduplication (the material routes),
and the ownership-guarded lookups of the controllers.

Conventions of the embedding:
- Mongo ObjectIds are `Nat`; enum string constants from
  `config/constants.js` become inductive types with one constructor per
  value; dates, virtuals and fields no claim touches (settings, exports,
  generationHistory timestamps, qdrant metadata) are omitted.
- A Mongoose document field of type ObjectId that was never assigned is
  JavaScript `undefined`, which is distinct from an explicit `null`;
  `JsRef` embeds the three cases.  `Quiz.updateProgress` compares with
  strict `!== null`, embedded by `JsRef.strictNeNull`.
- Stateful controller handlers become functions `Db → inputs →
  ApiResponse × Db`; a Mongoose `save` of an in-memory document is the
  pointwise replacement of the document with that id in its collection.
- The external md5 collaborator is a `String → String` parameter of the
  material routes.
-/

/-- `QUIZ_STATUS` from `config/constants.js`. -/
inductive QuizStatus where
  | draft
  | materialsAssigned
  | objectivesSet
  | planGenerated
  | planApproved
  | generating
  | generated
  | reviewing
  | completed
deriving DecidableEq, Repr

/-- `PLAN_STATUS` from `config/constants.js`. -/
inductive PlanStatus where
  | draft
  | approved
  | modified
  | used
deriving DecidableEq, Repr

/-- A JavaScript reference-valued field: never assigned (`undefined`),
explicitly `null`, or holding a value. -/
inductive JsRef (α : Type) where
  | undef
  | null
  | val (a : α)
deriving DecidableEq, Repr

/-- The strict comparison `x !== null` as used in
`quizSchema.methods.updateProgress` (`Quiz.js` line 171): `undefined`
passes this test. -/
def JsRef.strictNeNull : JsRef α → Bool
  | .null => false
  | _ => true

/-- Whether the field holds an actual value (`x !== null && x !== undefined`,
the check of the `hasActivePlan` virtual, `Quiz.js` line 163). -/
def JsRef.isVal : JsRef α → Bool
  | .val _ => true
  | _ => false

/-- The `progress` sub-document of a quiz (`Quiz.js` lines 103-110). -/
structure Progress where
  materialsAssigned : Bool
  objectivesSet : Bool
  planGenerated : Bool
  planApproved : Bool
  questionsGenerated : Bool
  reviewCompleted : Bool
deriving DecidableEq, Repr

/-- The Quiz aggregate root (`models/Quiz.js`).  Reference collections
hold ObjectIds only, exactly as the schema stores them. -/
structure Quiz where
  id : Nat
  name : String
  folder : Nat
  materials : List Nat
  learningObjectives : List Nat
  questions : List Nat
  generationPlans : List Nat
  activePlan : JsRef Nat
  progress : Progress
  status : QuizStatus
  createdBy : Nat
deriving DecidableEq, Repr

/-- `quizSchema.methods.updateProgress` (`Quiz.js` lines 167-188):
recompute the five flags from the collections, then the status chain.
Note the chain has no final `else`: when every flag is false the status
keeps its previous value, and `planApproved` is `activePlan !== null`
(strict), so `undefined` counts as approved. -/
def Quiz.updateProgress (q : Quiz) : Quiz :=
  let pr : Progress :=
    { q.progress with
      materialsAssigned := decide (q.materials.length > 0)
      objectivesSet := decide (q.learningObjectives.length > 0)
      planGenerated := decide (q.generationPlans.length > 0)
      planApproved := q.activePlan.strictNeNull
      questionsGenerated := decide (q.questions.length > 0) }
  let st : QuizStatus :=
    if pr.questionsGenerated then .completed
    else if pr.planApproved then .planApproved
    else if pr.planGenerated then .planGenerated
    else if pr.objectivesSet then .objectivesSet
    else if pr.materialsAssigned then .materialsAssigned
    else q.status
  { q with progress := pr, status := st }

/-- `quizSchema.methods.addGenerationPlan` (`Quiz.js` lines 198-204). -/
def Quiz.addGenerationPlan (q : Quiz) (planId : Nat) : Quiz :=
  if planId ∈ q.generationPlans then q
  else ({ q with generationPlans := q.generationPlans ++ [planId] }).updateProgress

/-- `quizSchema.methods.setActivePlan` (`Quiz.js` lines 206-209). -/
def Quiz.setActivePlan (q : Quiz) (planId : Nat) : Quiz :=
  ({ q with activePlan := .val planId }).updateProgress

/-- `quizSchema.methods.addMaterial` (`Quiz.js` lines 220-226). -/
def Quiz.addMaterial (q : Quiz) (materialId : Nat) : Quiz :=
  if materialId ∈ q.materials then q
  else ({ q with materials := q.materials ++ [materialId] }).updateProgress

/-- `quizSchema.methods.removeMaterial` (`Quiz.js` lines 228-231). -/
def Quiz.removeMaterial (q : Quiz) (materialId : Nat) : Quiz :=
  ({ q with materials := q.materials.filter (fun i => i ≠ materialId) }).updateProgress

/-- `quizSchema.methods.addLearningObjective` (`Quiz.js` lines 233-239). -/
def Quiz.addLearningObjective (q : Quiz) (objectiveId : Nat) : Quiz :=
  if objectiveId ∈ q.learningObjectives then q
  else ({ q with learningObjectives := q.learningObjectives ++ [objectiveId] }).updateProgress

/-- `quizSchema.methods.removeLearningObjective` (`Quiz.js` lines 241-244). -/
def Quiz.removeLearningObjective (q : Quiz) (objectiveId : Nat) : Quiz :=
  ({ q with learningObjectives := q.learningObjectives.filter (fun i => i ≠ objectiveId) }).updateProgress

/-- `quizSchema.methods.addQuestion` (`Quiz.js` lines 246-252). -/
def Quiz.addQuestion (q : Quiz) (questionId : Nat) : Quiz :=
  if questionId ∈ q.questions then q
  else ({ q with questions := q.questions ++ [questionId] }).updateProgress

/-- `quizSchema.methods.removeQuestion` (`Quiz.js` lines 254-257). -/
def Quiz.removeQuestion (q : Quiz) (questionId : Nat) : Quiz :=
  ({ q with questions := q.questions.filter (fun i => i ≠ questionId) }).updateProgress

/-- The derivation the spec states for `deriveProgress`: each flag is the
non-emptiness of its collection and `planApproved = (activePlan != null)`,
i.e. an actual plan reference is present (loose comparison: `undefined`
does not count). -/
def specDeriveProgress (q : Quiz) : Progress :=
  { materialsAssigned := decide (q.materials.length > 0)
    objectivesSet := decide (q.learningObjectives.length > 0)
    planGenerated := decide (q.generationPlans.length > 0)
    planApproved := q.activePlan.isVal
    questionsGenerated := decide (q.questions.length > 0)
    reviewCompleted := q.progress.reviewCompleted }

/-- The derivation the spec states for `deriveStatus`: priority order with
`draft` as the base case and `questionsGenerated` implying `completed`. -/
def specDeriveStatus (pr : Progress) : QuizStatus :=
  if pr.questionsGenerated then .completed
  else if pr.planApproved then .planApproved
  else if pr.planGenerated then .planGenerated
  else if pr.objectivesSet then .objectivesSet
  else if pr.materialsAssigned then .materialsAssigned
  else .draft

/-- A quiz exactly as `POST /api/quizzes` creates it (`quizController.js`
lines 65-71): only name, folder and creator are set, so `activePlan` is
the JavaScript `undefined` and the schema defaults apply to the rest. -/
def freshQuiz : Quiz :=
  { id := 1
    name := "Quiz 1"
    folder := 2
    materials := []
    learningObjectives := []
    questions := []
    generationPlans := []
    activePlan := .undef
    progress :=
      { materialsAssigned := false, objectivesSet := false, planGenerated := false
        planApproved := false, questionsGenerated := false, reviewCompleted := false }
    status := .draft
    createdBy := 5 }

/-- C1: the progress flags do NOT always equal the spec's derivation after
a mutating operation.  On a freshly created quiz (where `activePlan` was
never assigned and is therefore `undefined`, not `null`), adding one
material runs `updateProgress`, whose strict `activePlan !== null` test
sets `planApproved := true` and hence `status := plan-approved`, while the
derivation stated by the spec gives `planApproved = false` and status
`materials-assigned`. -/
theorem c1_progress_divergence :
    (freshQuiz.addMaterial 7).progress.planApproved = true ∧
    (freshQuiz.addMaterial 7).status = QuizStatus.planApproved ∧
    (specDeriveProgress (freshQuiz.addMaterial 7)).planApproved = false ∧
    specDeriveStatus (specDeriveProgress (freshQuiz.addMaterial 7)) =
      QuizStatus.materialsAssigned := by
  refine ⟨rfl, rfl, rfl, rfl⟩

/-- C9: each of the four reference-adding methods first tests membership
(`includes`), so adding an id that is already present returns the quiz
unchanged, and adding to a duplicate-free collection keeps it
duplicate-free. -/
theorem c9_add_idempotent (q : Quiz) (m lo qs p : Nat) :
    (m ∈ q.materials → q.addMaterial m = q) ∧
    (lo ∈ q.learningObjectives → q.addLearningObjective lo = q) ∧
    (qs ∈ q.questions → q.addQuestion qs = q) ∧
    (p ∈ q.generationPlans → q.addGenerationPlan p = q) ∧
    (q.materials.Nodup → (q.addMaterial m).materials.Nodup) ∧
    (q.learningObjectives.Nodup → (q.addLearningObjective lo).learningObjectives.Nodup) ∧
    (q.questions.Nodup → (q.addQuestion qs).questions.Nodup) ∧
    (q.generationPlans.Nodup → (q.addGenerationPlan p).generationPlans.Nodup) := by
  refine ⟨fun h => by simp [Quiz.addMaterial, h],
          fun h => by simp [Quiz.addLearningObjective, h],
          fun h => by simp [Quiz.addQuestion, h],
          fun h => by simp [Quiz.addGenerationPlan, h],
          fun h => ?_, fun h => ?_, fun h => ?_, fun h => ?_⟩
  · by_cases hm : m ∈ q.materials
    · simpa [Quiz.addMaterial, hm] using h
    · simp [Quiz.addMaterial, hm, Quiz.updateProgress, List.nodup_append, h]
  · by_cases hm : lo ∈ q.learningObjectives
    · simpa [Quiz.addLearningObjective, hm] using h
    · simp [Quiz.addLearningObjective, hm, Quiz.updateProgress, List.nodup_append, h]
  · by_cases hm : qs ∈ q.questions
    · simpa [Quiz.addQuestion, hm] using h
    · simp [Quiz.addQuestion, hm, Quiz.updateProgress, List.nodup_append, h]
  · by_cases hm : p ∈ q.generationPlans
    · simpa [Quiz.addGenerationPlan, hm] using h
    · simp [Quiz.addGenerationPlan, hm, Quiz.updateProgress, List.nodup_append, h]

/-- A quiz with one id in each reference collection, used to instantiate
`c9_add_idempotent`. -/
def populatedQuiz : Quiz :=
  { freshQuiz with
    materials := [1], learningObjectives := [2], questions := [3], generationPlans := [4] }

/-- Witness for C9 at a concrete quiz: re-adding each present id leaves
the quiz unchanged, and adding a fresh id keeps the collections
duplicate-free. -/
theorem c9_add_idempotent_witness :
    (populatedQuiz.addMaterial 1 = populatedQuiz ∧
      populatedQuiz.addLearningObjective 2 = populatedQuiz ∧
      populatedQuiz.addQuestion 3 = populatedQuiz ∧
      populatedQuiz.addGenerationPlan 4 = populatedQuiz) ∧
    (populatedQuiz.addMaterial 9).materials.Nodup := by
  have h := c9_add_idempotent populatedQuiz 1 2 3 4
  have h2 := c9_add_idempotent populatedQuiz 9 2 3 4
  exact ⟨⟨h.1 (by decide), h.2.1 (by decide), h.2.2.1 (by decide), h.2.2.2.1 (by decide)⟩,
    h2.2.2.2.2.1 (by decide)⟩

/-- An entry of a plan's per-objective breakdown:
`{ type, count, reasoning }` (`GenerationPlan` schema, `breakdown.questionTypes`). -/
structure QTEntry where
  qtype : String
  count : Nat
  reasoning : String
deriving DecidableEq, Repr

/-- One breakdown row: a learning objective with its question types. -/
structure BreakdownEntry where
  learningObjective : Nat
  questionTypes : List QTEntry
deriving DecidableEq, Repr

/-- One entry of a plan's overall distribution:
`{ type, totalCount, percentage }`. -/
structure DistEntry where
  dtype : String
  totalCount : Nat
  percentage : Nat
deriving DecidableEq, Repr

/-- One modification record of a plan (`modifications` array; the
`modifiedAt` date is omitted). -/
structure PlanModification where
  modifiedBy : Nat
  changes : String
  previousBreakdown : List BreakdownEntry
deriving DecidableEq, Repr

/-- A generation plan document (`models/GenerationPlan.js`); the
`generationMetadata` block is omitted (no claim touches it). -/
structure GenerationPlan where
  id : Nat
  quiz : Nat
  approach : String
  questionsPerLO : Nat
  totalQuestions : Nat
  breakdown : List BreakdownEntry
  distribution : List DistEntry
  status : PlanStatus
  modifications : List PlanModification
  createdBy : Nat
deriving DecidableEq, Repr

/-- `Math.round(a / b)` on non-negative operands: `floor(a/b + 1/2)`.
For the percentage tables and `questionsPerLO ∈ [1,10]` used by the plan
engine this agrees with the double-precision evaluation in JavaScript. -/
def jsRoundDiv (a b : Nat) : Nat :=
  (2 * a + b) / (2 * b)

/-- `generationPlanSchema.methods.approve` (before the `save`). -/
def GenerationPlan.approve (p : GenerationPlan) : GenerationPlan :=
  { p with status := .approved }

/-- `generationPlanSchema.methods.addModification`: push the record and
set `status = modified`. -/
def GenerationPlan.addModification (p : GenerationPlan) (userId : Nat) (changes : String)
    (previousData : List BreakdownEntry) : GenerationPlan :=
  { p with
    modifications := p.modifications ++ [⟨userId, changes, previousData⟩]
    status := .modified }

/-- `typeCounts[t] = (typeCounts[t] || 0) + c` on a JavaScript object kept
as an association list in key-insertion order. -/
def bumpCount : List (String × Nat) → String → Nat → List (String × Nat)
  | [], t, c => [(t, c)]
  | (t', c') :: rest, t, c =>
      if t' = t then (t', c' + c) :: rest else (t', c') :: bumpCount rest t c

/-- Accumulate a list of `(type, count)` pairs into the counts object. -/
def bumpAll (acc : List (String × Nat)) (l : List (String × Nat)) : List (String × Nat) :=
  l.foldl (fun a tc => bumpCount a tc.1 tc.2) acc

/-- The nested `forEach` of `updateDistribution` (and of the plan
`generate` route): count every question type across all breakdown rows,
in traversal order. -/
def accumulateTypeCounts (b : List BreakdownEntry) : List (String × Nat) :=
  b.foldl (fun acc lo =>
    lo.questionTypes.foldl (fun acc2 qt => bumpCount acc2 qt.qtype qt.count) acc) []

/-- `generationPlanSchema.methods.updateDistribution`: rebuild
`distribution` from `breakdown`, with
`percentage = Math.round(count / totalQuestions * 100)`. -/
def GenerationPlan.updateDistribution (p : GenerationPlan) : GenerationPlan :=
  { p with
    distribution := (accumulateTypeCounts p.breakdown).map fun tc =>
      ⟨tc.1, tc.2, jsRoundDiv (tc.2 * 100) p.totalQuestions⟩ }

/-- Sum of all counts of a breakdown (the nested `reduce` of
`updateBreakdown`). -/
def sumBreakdown (b : List BreakdownEntry) : Nat :=
  (b.map (fun lo => (lo.questionTypes.map (fun qt => qt.count)).sum)).sum

/-- `generationPlanSchema.methods.updateBreakdown`: replace the
breakdown, recompute `totalQuestions` as the sum of all counts, rebuild
the distribution, then record the modification. -/
def GenerationPlan.updateBreakdown (p : GenerationPlan) (newBreakdown : List BreakdownEntry)
    (userId : Nat) : GenerationPlan :=
  let previousData := p.breakdown
  let p1 := { p with breakdown := newBreakdown, totalQuestions := sumBreakdown newBreakdown }
  (p1.updateDistribution).addModification userId "Breakdown updated" previousData

/-- The `support` percentage table of `getQuestionTypeDistribution`
(`objectiveController.js` plans section). -/
def supportDistribution : List (String × Nat) :=
  [("multiple-choice", 40), ("true-false", 20), ("flashcard", 30), ("summary", 10)]

/-- The `assess` percentage table. -/
def assessDistribution : List (String × Nat) :=
  [("multiple-choice", 50), ("true-false", 20), ("discussion", 20), ("summary", 10)]

/-- The `gamify` percentage table. -/
def gamifyDistribution : List (String × Nat) :=
  [("matching", 30), ("ordering", 25), ("multiple-choice", 25), ("flashcard", 20)]

/-- The `custom` percentage table. -/
def customDistribution : List (String × Nat) :=
  [("multiple-choice", 35), ("true-false", 15), ("flashcard", 15),
   ("discussion", 15), ("summary", 10), ("matching", 10)]

/-- The property names a JavaScript object literal inherits from
`Object.prototype`: for these keys `distributions[approach]` yields a
truthy inherited value (a function, or the prototype itself for
`__proto__`), so the `||` fallback does NOT trigger. -/
def objectPrototypeKeys : List String :=
  ["constructor", "hasOwnProperty", "isPrototypeOf", "propertyIsEnumerable",
   "toLocaleString", "toString", "valueOf",
   "__defineGetter__", "__defineSetter__", "__lookupGetter__", "__lookupSetter__",
   "__proto__"]

/-- `getQuestionTypeDistribution(approach)`: the object lookup
`distributions[approach] || distributions[SUPPORT]`.  An own key returns
its table; a key inherited from `Object.prototype` returns the truthy
inherited value — not a percentage table — whose `Object.entries` view
(the only way the caller consumes the result) is empty, embedded here as
the empty table; any other key yields `undefined` and falls back to the
`support` table. -/
def getQuestionTypeDistribution (approach : String) : List (String × Nat) :=
  if approach = "support" then supportDistribution
  else if approach = "assess" then assessDistribution
  else if approach = "gamify" then gamifyDistribution
  else if approach = "custom" then customDistribution
  else if approach ∈ objectPrototypeKeys then []
  else supportDistribution

/-- `getReasoningForQuestionType(type, approach)`: static lookup by type;
only the multiple-choice string interpolates the approach. -/
def getReasoningForQuestionType (t approach : String) : String :=
  if t = "multiple-choice" then
    "Multiple choice questions provide clear assessment with immediate feedback, suitable for "
      ++ approach ++ " approach"
  else if t = "true-false" then
    "True/false questions test basic understanding and work well for quick comprehension checks"
  else if t = "flashcard" then
    "Flashcards support active recall and spaced repetition learning"
  else if t = "summary" then
    "Summary questions encourage synthesis and deeper understanding"
  else if t = "discussion" then
    "Discussion prompts foster critical thinking and analysis"
  else if t = "matching" then
    "Matching exercises help connect related concepts in an engaging way"
  else if t = "ordering" then
    "Ordering questions test understanding of sequences and relationships"
  else if t = "cloze" then
    "Fill-in-the-blank questions test specific knowledge retention"
  else "Selected to support learning objectives"

/-- The inner loop of the plan `generate` route: for each `(type,
percentage)` of the table, `count = Math.round(percentage / 100 *
questionsPerLO)`; entries with count `0` are skipped. -/
def buildQuestionTypes (questionsPerLO : Nat) (approach : String) :
    List (String × Nat) → List QTEntry
  | [] => []
  | (t, percentage) :: rest =>
      let count := jsRoundDiv (percentage * questionsPerLO) 100
      if count > 0 then
        ⟨t, count, getReasoningForQuestionType t approach⟩ ::
          buildQuestionTypes questionsPerLO approach rest
      else buildQuestionTypes questionsPerLO approach rest

/-- The outer loop of the plan `generate` route: one breakdown row per
learning objective, in quiz order. -/
def mkBreakdown (objectiveIds : List Nat) (dist : List (String × Nat))
    (questionsPerLO : Nat) (approach : String) : List BreakdownEntry :=
  objectiveIds.map fun oid => ⟨oid, buildQuestionTypes questionsPerLO approach dist⟩

/-- The plan document built by `POST /api/plans/generate`
(`objectiveController.js` plans section): breakdown from the approach's
percentage table, `totalQuestions = objectives.length * questionsPerLO`,
and the distribution aggregated from the breakdown with
`percentage = Math.round(count / totalQuestions * 100)`.  `planId` stands
for the fresh Mongo id of the new document. -/
def generatePlanCore (planId quizId : Nat) (objectiveIds : List Nat) (approach : String)
    (questionsPerLO : Nat) (userId : Nat) : GenerationPlan :=
  let dist := getQuestionTypeDistribution approach
  let breakdown := mkBreakdown objectiveIds dist questionsPerLO approach
  let totalQuestions := objectiveIds.length * questionsPerLO
  { id := planId
    quiz := quizId
    approach := approach
    questionsPerLO := questionsPerLO
    totalQuestions := totalQuestions
    breakdown := breakdown
    distribution := (accumulateTypeCounts breakdown).map fun tc =>
      ⟨tc.1, tc.2, jsRoundDiv (tc.2 * 100) totalQuestions⟩
    status := .draft
    modifications := []
    createdBy := userId }

/-- Sum of the `totalCount` fields of a distribution. -/
def sumDistribution (d : List DistEntry) : Nat :=
  (d.map (fun e => e.totalCount)).sum

/-- Sum of the counts of a `(type, count)` association list. -/
def sumPairs (l : List (String × Nat)) : Nat :=
  (l.map (fun tc => tc.2)).sum

/-- The flat list of `(type, count)` pairs a breakdown contributes, in
traversal order. -/
def breakdownPairs (b : List BreakdownEntry) : List (String × Nat) :=
  b.flatMap fun lo => lo.questionTypes.map fun qt => (qt.qtype, qt.count)

theorem sumPairs_bumpCount (acc : List (String × Nat)) (t : String) (c : Nat) :
    sumPairs (bumpCount acc t c) = sumPairs acc + c := by
  induction acc with
  | nil => simp [bumpCount, sumPairs]
  | cons hd tl ih =>
      by_cases h : hd.1 = t
      · simp [bumpCount, h, sumPairs]
        omega
      · simp only [bumpCount, h, if_neg]
        simp [sumPairs] at ih ⊢
        omega

theorem sumPairs_bumpAll (acc l : List (String × Nat)) :
    sumPairs (bumpAll acc l) = sumPairs acc + sumPairs l := by
  induction l generalizing acc with
  | nil => simp [bumpAll, sumPairs]
  | cons hd tl ih =>
      simp only [bumpAll, List.foldl_cons] at *
      rw [ih, sumPairs_bumpCount]
      simp [sumPairs]
      omega

theorem accumulateTypeCounts_eq_bumpAll (b : List BreakdownEntry) :
    accumulateTypeCounts b = bumpAll [] (breakdownPairs b) := by
  suffices h : ∀ acc, b.foldl (fun acc lo =>
      lo.questionTypes.foldl (fun acc2 qt => bumpCount acc2 qt.qtype qt.count) acc) acc =
      bumpAll acc (breakdownPairs b) by
    exact h []
  induction b with
  | nil => intro acc; simp [breakdownPairs, bumpAll]
  | cons hd tl ih =>
      intro acc
      simp only [List.foldl_cons, breakdownPairs, List.flatMap_cons, bumpAll,
        List.foldl_append] at *
      rw [ih]
      congr 1
      simp [bumpAll, List.foldl_map]

/-- The total of the accumulated counts object equals the sum of all
breakdown counts. -/
theorem sumPairs_accumulateTypeCounts (b : List BreakdownEntry) :
    sumPairs (accumulateTypeCounts b) = sumBreakdown b := by
  rw [accumulateTypeCounts_eq_bumpAll, sumPairs_bumpAll]
  simp only [sumPairs, sumBreakdown, breakdownPairs]
  induction b with
  | nil => simp
  | cons hd tl ih =>
      simp only [List.flatMap_cons, List.map_append, List.sum_append, List.map_cons,
        List.sum_cons, List.map_map] at ih ⊢
      simp at ih
      rw [ih]
      have hfun : ((fun tc : String × Nat => tc.2) ∘ fun qt : QTEntry => (qt.qtype, qt.count)) =
          fun qt : QTEntry => qt.count := rfl
      rw [hfun]
      simp


theorem buildQuestionTypes_eq_filterMap (q : Nat) (a : String) (d : List (String × Nat)) :
    buildQuestionTypes q a d = d.filterMap (fun tp =>
      let c := jsRoundDiv (tp.2 * q) 100
      if c > 0 then some ⟨tp.1, c, getReasoningForQuestionType tp.1 a⟩ else none) := by
  induction d with
  | nil => rfl
  | cons hd tl ih =>
      obtain ⟨t, percentage⟩ := hd
      by_cases hc : jsRoundDiv (percentage * q) 100 > 0
      · simp [buildQuestionTypes, List.filterMap_cons, hc, ih]
      · simp [buildQuestionTypes, List.filterMap_cons, hc, ih]

/-- C4: on a non-empty objective list, a recognised approach and
`questionsPerLO` in the validated range, the generated plan's breakdown
gives every objective, for each table entry `(type, percentage)`, the
count `Math.round(percentage / 100 * questionsPerLO)`, omitting zero
counts and attaching the statically selected reasoning string; its
`totalQuestions` is `|objectives| * questionsPerLO`. -/
theorem c4_generate_plan_breakdown (planId quizId : Nat) (objectiveIds : List Nat)
    (approach : String) (questionsPerLO userId : Nat)
    (hobj : objectiveIds ≠ [])
    (happ : approach ∈ (["support", "assess", "gamify", "custom"] : List String))
    (h1 : 1 ≤ questionsPerLO) (h10 : questionsPerLO ≤ 10) :
    (generatePlanCore planId quizId objectiveIds approach questionsPerLO userId).totalQuestions =
      objectiveIds.length * questionsPerLO ∧
    (generatePlanCore planId quizId objectiveIds approach questionsPerLO userId).breakdown =
      objectiveIds.map (fun oid =>
        ⟨oid, (getQuestionTypeDistribution approach).filterMap (fun tp =>
          let c := jsRoundDiv (tp.2 * questionsPerLO) 100
          if c > 0 then some ⟨tp.1, c, getReasoningForQuestionType tp.1 approach⟩
          else none)⟩) ∧
    ∀ e ∈ (generatePlanCore planId quizId objectiveIds approach questionsPerLO userId).breakdown,
      ∀ qt ∈ e.questionTypes, 0 < qt.count := by
  refine ⟨rfl, ?_, ?_⟩
  · simp only [generatePlanCore, mkBreakdown, buildQuestionTypes_eq_filterMap]
  · intro e he qt hqt
    simp only [generatePlanCore, mkBreakdown, List.mem_map] at he
    obtain ⟨oid, _, rfl⟩ := he
    simp only [buildQuestionTypes_eq_filterMap, List.mem_filterMap] at hqt
    obtain ⟨tp, _, htp⟩ := hqt
    by_cases hc : jsRoundDiv (tp.2 * questionsPerLO) 100 > 0
    · simp only [hc, if_pos] at htp
      cases htp
      exact hc
    · simp [hc] at htp

/-- Witness for C4: two objectives, approach `support`,
`questionsPerLO = 3`. -/
theorem c4_generate_plan_breakdown_witness :
    (generatePlanCore 1 2 [10, 11] "support" 3 7).totalQuestions = [10, 11].length * 3 ∧
    (generatePlanCore 1 2 [10, 11] "support" 3 7).breakdown =
      [10, 11].map (fun oid =>
        ⟨oid, (getQuestionTypeDistribution "support").filterMap (fun tp =>
          let c := jsRoundDiv (tp.2 * 3) 100
          if c > 0 then some ⟨tp.1, c, getReasoningForQuestionType tp.1 "support"⟩
          else none)⟩) ∧
    ∀ e ∈ (generatePlanCore 1 2 [10, 11] "support" 3 7).breakdown,
      ∀ qt ∈ e.questionTypes, 0 < qt.count :=
  c4_generate_plan_breakdown 1 2 [10, 11] "support" 3 7 (by decide) (by decide)
    (by decide) (by decide)

/-- C5, counterexample: a plan generated for one objective with approach
`support` and `questionsPerLO = 5` has `totalQuestions = 5`, yet its
breakdown counts sum to `6` (40% → 2, 20% → 1, 30% → 2, 10% → 1) and its
distribution `totalCount`s also sum to `6`; the claimed invariant fails
right after `generatePlan` completes. -/
theorem c5_total_questions_counterexample :
    (generatePlanCore 1 2 [10] "support" 5 7).totalQuestions = 5 ∧
    sumBreakdown (generatePlanCore 1 2 [10] "support" 5 7).breakdown = 6 ∧
    sumDistribution (generatePlanCore 1 2 [10] "support" 5 7).distribution = 6 ∧
    (generatePlanCore 1 2 [10] "support" 5 7).totalQuestions ≠
      sumBreakdown (generatePlanCore 1 2 [10] "support" 5 7).breakdown := by
  refine ⟨rfl, rfl, rfl, by decide⟩

theorem sumDistribution_of_counts (l : List (String × Nat)) (f : String × Nat → Nat) :
    sumDistribution (l.map fun tc => ⟨tc.1, tc.2, f tc⟩) = sumPairs l := by
  induction l with
  | nil => rfl
  | cons hd tl ih => simp [sumDistribution, sumPairs] at ih ⊢; omega

/-- C5, amended: `updateBreakdown` always restores the invariant — the
new `totalQuestions` is the sum of the replaced breakdown's counts and
the recomputed distribution's `totalCount`s sum to it — while a plan
produced by the `generate` route has
`totalQuestions = |objectives| * questionsPerLO`, and its distribution
counts sum to its breakdown counts but not necessarily to
`totalQuestions`. -/
theorem c5_update_breakdown_invariant (p : GenerationPlan) (nb : List BreakdownEntry)
    (userId planId quizId questionsPerLO userId2 : Nat) (objectiveIds : List Nat)
    (approach : String) :
    ((p.updateBreakdown nb userId).totalQuestions = sumBreakdown nb ∧
      sumDistribution (p.updateBreakdown nb userId).distribution =
        (p.updateBreakdown nb userId).totalQuestions) ∧
    ((generatePlanCore planId quizId objectiveIds approach questionsPerLO userId2).totalQuestions =
        objectiveIds.length * questionsPerLO ∧
      sumDistribution
          (generatePlanCore planId quizId objectiveIds approach questionsPerLO userId2).distribution =
        sumBreakdown
          (generatePlanCore planId quizId objectiveIds approach questionsPerLO userId2).breakdown) := by
  refine ⟨⟨rfl, ?_⟩, rfl, ?_⟩
  · show sumDistribution ((accumulateTypeCounts nb).map fun tc =>
      ⟨tc.1, tc.2, jsRoundDiv (tc.2 * 100) (sumBreakdown nb)⟩) = sumBreakdown nb
    rw [sumDistribution_of_counts, sumPairs_accumulateTypeCounts]
  · show sumDistribution ((accumulateTypeCounts _).map fun tc =>
      ⟨tc.1, tc.2, jsRoundDiv (tc.2 * 100) (objectiveIds.length * questionsPerLO)⟩) = _
    rw [sumDistribution_of_counts, sumPairs_accumulateTypeCounts]
    rfl

/-- A breakdown entry with the reasoning strings erased: objective id and
`(type, count)` pairs only. -/
def stripEntry (e : BreakdownEntry) : Nat × List (String × Nat) :=
  (e.learningObjective, e.questionTypes.map fun qt => (qt.qtype, qt.count))

theorem strip_buildQuestionTypes (q : Nat) (a b : String) (d : List (String × Nat)) :
    (buildQuestionTypes q a d).map (fun qt => (qt.qtype, qt.count)) =
      (buildQuestionTypes q b d).map (fun qt => (qt.qtype, qt.count)) := by
  induction d with
  | nil => rfl
  | cons hd tl ih =>
      obtain ⟨t, percentage⟩ := hd
      by_cases hc : jsRoundDiv (percentage * q) 100 > 0
      · simp [buildQuestionTypes, hc, ih]
      · simp [buildQuestionTypes, hc, ih]

theorem breakdownPairs_eq_flatMap_strip (b : List BreakdownEntry) :
    breakdownPairs b = (b.map stripEntry).flatMap (fun pr => pr.2) := by
  induction b with
  | nil => rfl
  | cons hd tl ih => simp [breakdownPairs, stripEntry, List.flatMap_cons] at ih ⊢; exact ih

theorem accumulateTypeCounts_empty_entries (l : List Nat) :
    accumulateTypeCounts (l.map fun oid => (⟨oid, []⟩ : BreakdownEntry)) = [] := by
  show List.foldl _ ([] : List (String × Nat)) _ = []
  suffices h : ∀ acc : List (String × Nat),
      (l.map fun oid => (⟨oid, []⟩ : BreakdownEntry)).foldl
        (fun acc lo => lo.questionTypes.foldl
          (fun acc2 qt => bumpCount acc2 qt.qtype qt.count) acc) acc = acc from h []
  induction l with
  | nil => intro acc; rfl
  | cons hd tl ih => intro acc; simpa using ih acc

theorem generate_plan_of_empty_table (planId quizId questionsPerLO userId : Nat)
    (objectiveIds : List Nat) (a : String) (h : getQuestionTypeDistribution a = []) :
    (generatePlanCore planId quizId objectiveIds a questionsPerLO userId).breakdown =
      objectiveIds.map (fun oid => (⟨oid, []⟩ : BreakdownEntry)) ∧
    (generatePlanCore planId quizId objectiveIds a questionsPerLO userId).distribution = [] := by
  have hbd : (generatePlanCore planId quizId objectiveIds a questionsPerLO userId).breakdown =
      objectiveIds.map (fun oid => (⟨oid, []⟩ : BreakdownEntry)) := by
    show mkBreakdown objectiveIds (getQuestionTypeDistribution a) questionsPerLO a = _
    rw [h]
    rfl
  refine ⟨hbd, ?_⟩
  show (accumulateTypeCounts
    (mkBreakdown objectiveIds (getQuestionTypeDistribution a) questionsPerLO a)).map _ = []
  have hacc : accumulateTypeCounts
      (mkBreakdown objectiveIds (getQuestionTypeDistribution a) questionsPerLO a) = [] := by
    have h2 : mkBreakdown objectiveIds (getQuestionTypeDistribution a) questionsPerLO a =
        objectiveIds.map (fun oid => (⟨oid, []⟩ : BreakdownEntry)) := hbd
    rw [h2]
    exact accumulateTypeCounts_empty_entries objectiveIds
  rw [hacc]
  rfl

/-- C10, counterexample: the approach `toString` is outside the
enumerated set, yet `distributions["toString"]` hits the inherited
`Object.prototype.toString` — a truthy value — so the `||` fallback does
not trigger and the function does NOT return the `support` table: the
resulting plan has an empty question-type list for every objective and
an empty distribution, unlike generation with `support`. -/
theorem c10_prototype_counterexample :
    getQuestionTypeDistribution "toString" = [] ∧
    getQuestionTypeDistribution "toString" ≠ getQuestionTypeDistribution "support" ∧
    (generatePlanCore 1 2 [10] "toString" 3 7).breakdown = [⟨10, []⟩] ∧
    (generatePlanCore 1 2 [10] "toString" 3 7).distribution = [] ∧
    (generatePlanCore 1 2 [10] "toString" 3 7).breakdown.map stripEntry ≠
      (generatePlanCore 1 2 [10] "support" 3 7).breakdown.map stripEntry ∧
    (generatePlanCore 1 2 [10] "toString" 3 7).distribution ≠
      (generatePlanCore 1 2 [10] "support" 3 7).distribution := by
  refine ⟨rfl, by decide, rfl, rfl, by decide, by decide⟩

/-- C10, amended: for any approach outside the enumerated set that is
not a property name inherited from `Object.prototype`, the percentage
table falls back to the `support` table and the generated plan has the
same breakdown counts (reasoning strings aside, which interpolate the
approach name), the same distribution and the same `totalQuestions` as
generation with approach `support`; for an inherited name the lookup
returns the truthy inherited value instead, so the plan's breakdown has
no question types at all and its distribution is empty. -/
theorem c10_unknown_approach_fallback (a b : String)
    (h : a ∉ (["support", "assess", "gamify", "custom"] : List String))
    (ha2 : a ∉ objectPrototypeKeys) (hb : b ∈ objectPrototypeKeys)
    (planId quizId questionsPerLO userId : Nat) (objectiveIds : List Nat) :
    (getQuestionTypeDistribution b = [] ∧
      (generatePlanCore planId quizId objectiveIds b questionsPerLO userId).breakdown =
        objectiveIds.map (fun oid => (⟨oid, []⟩ : BreakdownEntry)) ∧
      (generatePlanCore planId quizId objectiveIds b questionsPerLO userId).distribution =
        []) ∧
    getQuestionTypeDistribution a = getQuestionTypeDistribution "support" ∧
    (generatePlanCore planId quizId objectiveIds a questionsPerLO userId).breakdown.map
        stripEntry =
      (generatePlanCore planId quizId objectiveIds "support" questionsPerLO userId).breakdown.map
        stripEntry ∧
    (generatePlanCore planId quizId objectiveIds a questionsPerLO userId).distribution =
      (generatePlanCore planId quizId objectiveIds "support" questionsPerLO userId).distribution ∧
    (generatePlanCore planId quizId objectiveIds a questionsPerLO userId).totalQuestions =
      (generatePlanCore planId quizId objectiveIds "support" questionsPerLO userId).totalQuestions := by
  simp only [List.mem_cons, List.mem_singleton, not_or] at h
  obtain ⟨h1, h2, h3, h4⟩ := h
  have hqtdb : getQuestionTypeDistribution b = [] := by
    fin_cases hb <;> rfl
  have hd : getQuestionTypeDistribution a = getQuestionTypeDistribution "support" := by
    simp [getQuestionTypeDistribution, h1, h2, h3, h4, ha2]
  have hstrip : (generatePlanCore planId quizId objectiveIds a questionsPerLO userId).breakdown.map
      stripEntry =
      (generatePlanCore planId quizId objectiveIds "support" questionsPerLO userId).breakdown.map
      stripEntry := by
    simp only [generatePlanCore, mkBreakdown, List.map_map]
    refine List.map_congr_left fun oid _ => ?_
    simp only [Function.comp, stripEntry, hd]
    exact congrArg _ (strip_buildQuestionTypes questionsPerLO a "support" _)
  refine ⟨⟨hqtdb,
      generate_plan_of_empty_table planId quizId questionsPerLO userId objectiveIds b hqtdb⟩,
    hd, hstrip, ?_, rfl⟩
  show (accumulateTypeCounts _).map _ = (accumulateTypeCounts _).map _
  have hp : breakdownPairs
      (mkBreakdown objectiveIds (getQuestionTypeDistribution a) questionsPerLO a) =
      breakdownPairs
      (mkBreakdown objectiveIds (getQuestionTypeDistribution "support") questionsPerLO
        "support") := by
    rw [breakdownPairs_eq_flatMap_strip, breakdownPairs_eq_flatMap_strip]
    exact congrArg (fun l => l.flatMap fun pr : Nat × List (String × Nat) => pr.2) hstrip
  rw [accumulateTypeCounts_eq_bumpAll, accumulateTypeCounts_eq_bumpAll, hp]

/-- Witness for C10 (amended) at the unrecognised approach `flipped`
and the inherited name `valueOf`. -/
theorem c10_unknown_approach_fallback_witness :
    (getQuestionTypeDistribution "valueOf" = [] ∧
      (generatePlanCore 1 2 [10] "valueOf" 3 7).breakdown =
        [10].map (fun oid => (⟨oid, []⟩ : BreakdownEntry)) ∧
      (generatePlanCore 1 2 [10] "valueOf" 3 7).distribution = []) ∧
    getQuestionTypeDistribution "flipped" = getQuestionTypeDistribution "support" ∧
    (generatePlanCore 1 2 [10] "flipped" 3 7).breakdown.map stripEntry =
      (generatePlanCore 1 2 [10] "support" 3 7).breakdown.map stripEntry ∧
    (generatePlanCore 1 2 [10] "flipped" 3 7).distribution =
      (generatePlanCore 1 2 [10] "support" 3 7).distribution ∧
    (generatePlanCore 1 2 [10] "flipped" 3 7).totalQuestions =
      (generatePlanCore 1 2 [10] "support" 3 7).totalQuestions :=
  c10_unknown_approach_fallback "flipped" "valueOf" (by decide) (by decide) (by decide)
    1 2 3 7 [10]

/-- One record of a learning objective's `editHistory`
(`editedAt` omitted). -/
structure EditRecord where
  editedBy : Nat
  changes : String
  previousText : String
deriving DecidableEq, Repr

/-- A learning objective document (`models/LearningObjective.js`);
generation metadata is omitted. -/
structure LearningObjective where
  id : Nat
  text : String
  quiz : Nat
  order : Nat
  editHistory : List EditRecord
  createdBy : Nat
deriving DecidableEq, Repr

/-- `learningObjectiveSchema.methods.updateText`: store the previous
text in the history, then replace the text. -/
def LearningObjective.updateText (o : LearningObjective) (newText : String)
    (userId : Nat) : LearningObjective :=
  { o with
    text := newText
    editHistory := o.editHistory ++ [⟨userId, "Text updated", o.text⟩] }

/-- `learningObjectiveSchema.methods.reorder`: set the order field. -/
def LearningObjective.reorder (o : LearningObjective) (newOrder : Nat) : LearningObjective :=
  { o with order := newOrder }

/-- A question document (`models/Question.js`), reduced to the fields
the modelled routes read: owning quiz, linked objective, order within
the quiz, and creator.  Type, difficulty, content, review status and
edit history are omitted (no claim touches them). -/
structure Question where
  id : Nat
  quiz : Nat
  learningObjective : Nat
  order : Nat
  createdBy : Nat
deriving DecidableEq, Repr

/-- A material document (`models/Material.js` in `src/unnamed/part_000`),
reduced to the fields the material routes read and write. -/
structure Material where
  id : Nat
  name : String
  mtype : String
  folder : Nat
  uploadedBy : Nat
  checksum : Option String
  content : Option String
  filePath : Option String
  fileSize : Nat
  processingStatus : String
deriving DecidableEq, Repr

/-- The `stats` sub-document of a folder (`folderSchema`, concatenated
tail of `models/Question.js`); `lastActivity` is a date and is omitted. -/
structure FolderStats where
  totalQuizzes : Nat
  totalQuestions : Nat
  totalMaterials : Nat
deriving DecidableEq, Repr

/-- The Folder document (`folderSchema`, concatenated tail of
`models/Question.js`): name, owning instructor, material and quiz
reference lists, and dashboard stats. -/
structure Folder where
  id : Nat
  name : String
  instructor : Nat
  materials : List Nat
  quizzes : List Nat
  stats : FolderStats
deriving DecidableEq, Repr

/-- `folderSchema.methods.updateStats`: refresh `totalQuizzes` and
`totalMaterials` from the reference lists (`totalQuestions` and
`lastActivity` are not recomputed here; the date is omitted). -/
def Folder.updateStats (f : Folder) : Folder :=
  { f with stats := { f.stats with
      totalQuizzes := f.quizzes.length
      totalMaterials := f.materials.length } }

/-- `folderSchema.methods.addMaterial`: push the reference only when it
is not already present (`includes` guard), then refresh the stats. -/
def Folder.addMaterial (f : Folder) (materialId : Nat) : Folder :=
  if materialId ∈ f.materials then f
  else ({ f with materials := f.materials ++ [materialId] }).updateStats

/-- `folderSchema.methods.removeMaterial`. -/
def Folder.removeMaterial (f : Folder) (materialId : Nat) : Folder :=
  ({ f with materials := f.materials.filter (fun i => i ≠ materialId) }).updateStats

/-- `folderSchema.methods.addQuiz`: the same `includes`-guarded push. -/
def Folder.addQuiz (f : Folder) (quizId : Nat) : Folder :=
  if quizId ∈ f.quizzes then f
  else ({ f with quizzes := f.quizzes ++ [quizId] }).updateStats

/-- `folderSchema.methods.removeQuiz`. -/
def Folder.removeQuiz (f : Folder) (quizId : Nat) : Folder :=
  ({ f with quizzes := f.quizzes.filter (fun i => i ≠ quizId) }).updateStats

/-- A controller response (`utils/responseFormatter.js`): either
`successResponse` (status, message, payload) or `errorResponse`
(status, error code, message).  Timestamps are omitted. -/
inductive ApiResponse (α : Type) where
  | success (statusCode : Nat) (message : String) (data : α)
  | error (statusCode : Nat) (code : String) (message : String)
deriving DecidableEq, Repr

/-- The HTTP status of a response. -/
def ApiResponse.statusCode : ApiResponse α → Nat
  | .success s _ _ => s
  | .error s _ _ => s

/-- `notFoundResponse(res, resource)`: 404 with code `NOT_FOUND` and
message `<resource> not found`. -/
def notFoundResponse (α : Type) (resource : String) : ApiResponse α :=
  .error 404 "NOT_FOUND" (resource ++ " not found")

/-- The database state: one list per collection, the set of stored
upload files, and the next fresh ObjectId. -/
structure Db where
  quizzes : List Quiz
  folders : List Folder
  materials : List Material
  objectives : List LearningObjective
  questions : List Question
  plans : List GenerationPlan
  storedFiles : List String
  nextId : Nat
deriving DecidableEq, Repr

/-- `POST /api/plans/:id/approve` (`objectiveController.js` plans
section): find the plan by id and owner (else 404), set its status to
`approved`, then set it as the owning quiz's `activePlan` (which
re-derives that quiz's progress). -/
def approvePlanRoute (db : Db) (userId planId : Nat) : ApiResponse GenerationPlan × Db :=
  match db.plans.find? (fun p => p.id == planId && p.createdBy == userId) with
  | none => (notFoundResponse GenerationPlan "Generation plan", db)
  | some plan =>
      let db1 := { db with
        plans := db.plans.map fun p : GenerationPlan =>
          if p.id == planId then p.approve else p }
      let db2 :=
        match db1.quizzes.find? (fun z => z.id == plan.quiz) with
        | some _ => { db1 with
            quizzes := db1.quizzes.map fun z : Quiz =>
              if z.id == plan.quiz then z.setActivePlan planId else z }
        | none => db1
      (.success 200 "Generation plan approved successfully" plan.approve, db2)

/-- A plan "counts as active" for a quiz when its own status is
`approved` and the quiz's `activePlan` references it. -/
def approvedActive (z : Quiz) (p : GenerationPlan) : Prop :=
  p.status = PlanStatus.approved ∧ z.activePlan = JsRef.val p.id

theorem eq_of_mem_nodup_map {α β : Type} {l : List α} {f : α → β} {a b : α}
    (h : (l.map f).Nodup) (ha : a ∈ l) (hb : b ∈ l) (hf : f a = f b) : a = b := by
  induction l with
  | nil => cases ha
  | cons hd tl ih =>
      simp only [List.map_cons, List.nodup_cons] at h
      rcases List.mem_cons.mp ha with rfl | ha'
      · rcases List.mem_cons.mp hb with rfl | hb'
        · rfl
        · exact absurd (hf ▸ List.mem_map_of_mem f hb') h.1
      · rcases List.mem_cons.mp hb with rfl | hb'
        · exact absurd (hf ▸ List.mem_map_of_mem f ha') h.1
        · exact ih h.2 ha' hb'

theorem setActivePlan_activePlan (z : Quiz) (planId : Nat) :
    (z.setActivePlan planId).activePlan = JsRef.val planId := rfl

/-- C3: after approving plan `B` for its quiz, every stored quiz document
with that quiz's id references exactly one approved plan through
`activePlan`, and it is `B`: `B`'s status is `approved`, `activePlan`
points at `B`, and any stored plan that is simultaneously approved and
referenced by `activePlan` is `B` itself.  (A previously approved plan
keeps its own `approved` status, but is no longer referenced.) -/
theorem c3_plan_approval_exclusive (db : Db) (userId planId : Nat) (B : GenerationPlan)
    (hB : db.plans.find? (fun p => p.id == planId && p.createdBy == userId) = some B)
    (hnp : (db.plans.map (fun p => p.id)).Nodup) :
    ∀ z ∈ (approvePlanRoute db userId planId).2.quizzes, z.id = B.quiz →
      ∃ pB ∈ (approvePlanRoute db userId planId).2.plans,
        pB.id = planId ∧ approvedActive z pB ∧
          ∀ p ∈ (approvePlanRoute db userId planId).2.plans, approvedActive z p → p = pB := by
  have hBmem : B ∈ db.plans := List.mem_of_find?_eq_some hB
  have hBpred := List.find?_some hB
  simp only [Bool.and_eq_true, beq_iff_eq] at hBpred
  obtain ⟨hBid, _⟩ := hBpred
  intro z hz hzid
  simp only [approvePlanRoute, hB] at hz ⊢
  have hzAP : z.activePlan = JsRef.val planId := by
    rcases hq : List.find? (fun zz => zz.id == B.quiz) db.quizzes with _ | Q
    · simp only [hq] at hz
      have := List.find?_eq_none.mp hq z hz
      simp [hzid] at this
    · simp only [hq] at hz
      obtain ⟨w, hw, hwz⟩ := List.mem_map.mp hz
      by_cases hwid : w.id = B.quiz
      · rw [if_pos (by simpa using hwid)] at hwz
        rw [← hwz]
        exact setActivePlan_activePlan w planId
      · rw [if_neg (by simpa using hwid)] at hwz
        exact absurd (hwz ▸ hzid) hwid
  refine ⟨B.approve, ?_, by simpa [GenerationPlan.approve] using hBid, ⟨rfl, ?_⟩, ?_⟩
  · rcases hq : List.find? (fun zz => zz.id == B.quiz) db.quizzes with _ | Q
    · simp only [hq]
      have : B.approve = if B.id == planId then B.approve else B := by simp [hBid]
      rw [this]
      exact List.mem_map_of_mem _ hBmem
    · simp only [hq]
      have : B.approve = if B.id == planId then B.approve else B := by simp [hBid]
      rw [this]
      exact List.mem_map_of_mem _ hBmem
  · rw [hzAP]
    simp [GenerationPlan.approve, hBid]
  · intro p hp hpa
    have hpid : p.id = planId := by
      obtain ⟨_, hap⟩ := hpa
      rw [hzAP] at hap
      cases hap
      rfl
    have hpmem : p ∈ db.plans.map fun pp => if pp.id == planId then pp.approve else pp := by
      rcases hq : List.find? (fun zz => zz.id == B.quiz) db.quizzes with _ | Q <;>
        simpa [hq] using hp
    obtain ⟨w, hw, hwp⟩ := List.mem_map.mp hpmem
    by_cases hwid : w.id = planId
    · rw [if_pos (by simpa using hwid)] at hwp
      have : w = B := eq_of_mem_nodup_map hnp hw hBmem (by rw [hwid, hBid])
      rw [← hwp, this]
    · rw [if_neg (by simpa using hwid)] at hwp
      exact absurd (hwp ▸ hpid) hwid

/-- A plan already approved and active for quiz 1. -/
def planA : GenerationPlan :=
  { id := 1, quiz := 1, approach := "support", questionsPerLO := 3, totalQuestions := 6
    breakdown := [], distribution := [], status := .approved, modifications := []
    createdBy := 5 }

/-- A second, draft plan for the same quiz. -/
def planB : GenerationPlan :=
  { planA with id := 2, status := .draft }

/-- Quiz 1 with both plans recorded and plan `A` currently active. -/
def quizWithActiveA : Quiz :=
  { freshQuiz with
    id := 1
    generationPlans := [1, 2]
    activePlan := JsRef.val 1
    status := QuizStatus.planApproved }

/-- The database for the C3 witness. -/
def dbApproval : Db :=
  { quizzes := [quizWithActiveA], folders := [], materials := [], objectives := []
    questions := [], plans := [planA, planB], storedFiles := [], nextId := 100 }

/-- Witness for C3: approving plan 2 while plan 1 was approved and
active leaves exactly plan 2 approved-and-referenced. -/
theorem c3_plan_approval_exclusive_witness :
    (approvePlanRoute dbApproval 5 2).1.statusCode = 200 ∧
    ∀ z ∈ (approvePlanRoute dbApproval 5 2).2.quizzes, z.id = planB.quiz →
      ∃ pB ∈ (approvePlanRoute dbApproval 5 2).2.plans,
        pB.id = 2 ∧ approvedActive z pB ∧
          ∀ p ∈ (approvePlanRoute dbApproval 5 2).2.plans, approvedActive z p → p = pB :=
  ⟨rfl, c3_plan_approval_exclusive dbApproval 5 2 planB (by rfl) (by decide)⟩

/-- `learningObjectiveSchema.statics.reorderObjectives`: for each id of
`orderedIds`, `findByIdAndUpdate(id, { order: index })`.  The auxiliary
carries the running index. -/
def reorderUpdates (objs : List LearningObjective) (idx : Nat) :
    List Nat → List LearningObjective
  | [] => objs
  | oid :: rest =>
      reorderUpdates
        (objs.map fun o : LearningObjective =>
          if o.id = oid then { o with order := idx } else o)
        (idx + 1) rest

/-- The static `reorderObjectives(quizId, orderedIds)` (`Quiz.js` lines
434-439); the quiz id is not used by the updates themselves. -/
def reorderObjectives (_quizId : Nat) (objs : List LearningObjective)
    (orderedIds : List Nat) : List LearningObjective :=
  reorderUpdates objs 0 orderedIds

/-- `PUT /api/objectives/reorder` (`objectiveController.js` lines
362-399): after the quiz ownership check, fetch the objectives whose id
is in `objectiveIds` and which belong to this quiz and user; reject with
400 `INVALID_OBJECTIVES` when fewer documents than ids come back,
otherwise apply `reorderObjectives` and return the quiz's objectives. -/
def reorderObjectivesRoute (db : Db) (userId quizId : Nat) (objectiveIds : List Nat) :
    ApiResponse (List LearningObjective) × Db :=
  match db.quizzes.find? (fun z => z.id == quizId && z.createdBy == userId) with
  | none => (notFoundResponse (List LearningObjective) "Quiz", db)
  | some _ =>
      let matched := db.objectives.filter fun o : LearningObjective =>
        objectiveIds.contains o.id && o.quiz == quizId && o.createdBy == userId
      if matched.length ≠ objectiveIds.length then
        (.error 400 "INVALID_OBJECTIVES" "Some objectives not found or not owned by user", db)
      else
        let db1 := { db with objectives := reorderObjectives quizId db.objectives objectiveIds }
        (.success 200 "Learning objectives reordered successfully"
          (db1.objectives.filter fun o : LearningObjective => o.quiz == quizId), db1)

/-- The two objectives of quiz 1, orders 0 and 1. -/
def objA : LearningObjective :=
  { id := 10, text := "Explain recursion", quiz := 1, order := 0, editHistory := []
    createdBy := 5 }

/-- The second objective. -/
def objB : LearningObjective :=
  { objA with id := 11, text := "Apply induction", order := 1 }

/-- The database for the C2 counterexample: one quiz owned by user 5
with two objectives. -/
def dbReorder : Db :=
  { quizzes := [{ freshQuiz with id := 1 }], folders := [], materials := []
    objectives := [objA, objB], questions := [], plans := [], storedFiles := []
    nextId := 100 }

/-- C2, counterexample: calling reorder with `[11]` — a proper subset of
the quiz's objective ids `{10, 11}` — is ACCEPTED (status 200), and the
resulting order values over the quiz's 2 objectives are `[0, 0]`:
duplicated, and not `{0, 1}`.  The claim required the call to be
rejected unless the ids are exactly the quiz's id set. -/
theorem c2_reorder_counterexample :
    (reorderObjectivesRoute dbReorder 5 1 [11]).1.statusCode = 200 ∧
    ((reorderObjectivesRoute dbReorder 5 1 [11]).2.objectives.map
      (fun o => o.order)) = [0, 0] ∧
    ¬ ((reorderObjectivesRoute dbReorder 5 1 [11]).2.objectives.map
      (fun o => o.order)).Perm (List.range 2) := by
  refine ⟨rfl, rfl, ?_⟩
  decide

theorem reorderUpdates_eq (ids : List Nat) (h : ids.Nodup) :
    ∀ (objs : List LearningObjective) (n : Nat),
      reorderUpdates objs n ids = objs.map (fun o : LearningObjective =>
        if o.id ∈ ids then { o with order := n + ids.indexOf o.id } else o) := by
  induction ids with
  | nil =>
      intro objs n
      simp [reorderUpdates]
  | cons a rest ih =>
      intro objs n
      simp only [List.nodup_cons] at h
      obtain ⟨ha, hrest⟩ := h
      show reorderUpdates (objs.map _) (n + 1) rest = _
      rw [ih hrest, List.map_map]
      refine List.map_congr_left fun o _ => ?_
      by_cases h1 : o.id = a
      · have hnr : o.id ∉ rest := h1 ▸ ha
        simp only [Function.comp, if_pos h1]
        rw [if_neg (by simpa using hnr)]
        rw [if_pos (by simp [h1])]
        rw [h1, List.indexOf_cons_self]
        simp
      · simp only [Function.comp, if_neg h1]
        by_cases h2 : o.id ∈ rest
        · rw [if_pos h2, if_pos (by simp [h2])]
          rw [List.indexOf_cons_ne rest (fun hcc => h1 hcc.symm)]
          have : n + 1 + List.indexOf o.id rest = n + (List.indexOf o.id rest).succ := by omega
          rw [this]
        · rw [if_neg h2, if_neg (by simp [h1, h2])]

theorem map_indexOf_self (l : List Nat) (h : l.Nodup) :
    l.map (fun x => l.indexOf x) = List.range l.length := by
  induction l with
  | nil => rfl
  | cons a rest ih =>
      simp only [List.nodup_cons] at h
      obtain ⟨ha, hrest⟩ := h
      simp only [List.length_cons]
      rw [List.range_succ_eq_map]
      simp only [List.map_cons, List.indexOf_cons_self]
      congr 1
      have : rest.map (fun x => (a :: rest).indexOf x) =
          rest.map (fun x => (rest.indexOf x) + 1) := by
        refine List.map_congr_left fun x hx => ?_
        have hxa : a ≠ x := fun hc => ha (hc ▸ hx)
        rw [List.indexOf_cons_ne rest hxa]
      rw [this, ← ih hrest, List.map_map]
      rfl

/-- An id "belongs" to a quiz for a caller when a stored objective with
that id has this quiz and this creator. -/
def belongsTo (db : Db) (quizId userId oid : Nat) : Prop :=
  ∃ o ∈ db.objectives, o.id = oid ∧ o.quiz = quizId ∧ o.createdBy = userId

theorem matched_length_iff (db : Db) (quizId userId : Nat) (ids : List Nat)
    (hn : (db.objectives.map (fun o => o.id)).Nodup) :
    ((db.objectives.filter fun o : LearningObjective =>
        ids.contains o.id && o.quiz == quizId && o.createdBy == userId).length = ids.length)
    ↔ (ids.Nodup ∧ ∀ oid ∈ ids, belongsTo db quizId userId oid) := by
  classical
  set matched := db.objectives.filter fun o : LearningObjective =>
    ids.contains o.id && o.quiz == quizId && o.createdBy == userId with hmdef
  have hmsub : matched.Sublist db.objectives := List.filter_sublist _
  have hmIds_nodup : (matched.map (fun o => o.id)).Nodup :=
    hn.sublist (hmsub.map (fun o => o.id))
  have hsub : ∀ x ∈ matched.map (fun o => o.id), x ∈ ids := by
    intro x hx
    obtain ⟨o, ho, rfl⟩ := List.mem_map.mp hx
    have hpred := List.of_mem_filter ho
    simp only [Bool.and_eq_true, beq_iff_eq] at hpred
    exact List.elem_iff.mp hpred.1.1
  have hsubF : (matched.map (fun o => o.id)).toFinset ⊆ ids.toFinset := by
    intro x hx
    exact List.mem_toFinset.mpr (hsub x (List.mem_toFinset.mp hx))
  constructor
  · intro hlen
    have hclen : (matched.map (fun o => o.id)).length = ids.length := by
      simpa using hlen
    have hcard1 : (matched.map (fun o => o.id)).toFinset.card = ids.length := by
      rw [List.toFinset_card_of_nodup hmIds_nodup, hclen]
    have hle : ids.length ≤ ids.toFinset.card := by
      rw [← hcard1]
      exact Finset.card_le_card hsubF
    have hge : ids.toFinset.card ≤ ids.length := List.toFinset_card_le ids
    have hcardids : ids.toFinset.card = ids.length := le_antisymm hge hle
    have hnodup_ids : ids.Nodup := by
      have hd : ids.dedup.length = ids.length := by
        rw [← List.card_toFinset]
        exact hcardids
      have hds := (List.dedup_sublist ids).eq_of_length hd
      rw [← hds]
      exact List.nodup_dedup ids
    refine ⟨hnodup_ids, ?_⟩
    have hFeq : (matched.map (fun o => o.id)).toFinset = ids.toFinset :=
      Finset.eq_of_subset_of_card_le hsubF (by rw [hcard1, hcardids])
    intro oid hoid
    have hmem : oid ∈ (matched.map (fun o => o.id)).toFinset := by
      rw [hFeq]
      exact List.mem_toFinset.mpr hoid
    obtain ⟨o, ho, rfl⟩ := List.mem_map.mp (List.mem_toFinset.mp hmem)
    have hpred := List.of_mem_filter ho
    simp only [Bool.and_eq_true, beq_iff_eq] at hpred
    exact ⟨o, List.mem_of_mem_filter ho, rfl, hpred.1.2, hpred.2⟩
  · rintro ⟨hnd, hcov⟩
    have hsub2 : ∀ x ∈ ids, x ∈ matched.map (fun o => o.id) := by
      intro oid hoid
      obtain ⟨o, ho, hid, hq, hc⟩ := hcov oid hoid
      have hm : o ∈ matched := by
        refine List.mem_filter.mpr ⟨ho, ?_⟩
        simp only [Bool.and_eq_true, beq_iff_eq]
        exact ⟨⟨List.elem_iff.mpr (hid ▸ hoid), hq⟩, hc⟩
      exact hid ▸ List.mem_map_of_mem (fun o => o.id) hm
    have hperm : (matched.map (fun o => o.id)).Perm ids := by
      refine List.perm_of_nodup_nodup_toFinset_eq hmIds_nodup hnd ?_
      refine Finset.Subset.antisymm hsubF ?_
      intro x hx
      exact List.mem_toFinset.mpr (hsub2 x (List.mem_toFinset.mp hx))
    have := hperm.length_eq
    simpa using this

/-- The objectives half of the reorder characterisation: acceptance
criterion, rejection leaving the state unchanged, the success
postcondition, and density when the id list covers the quiz. -/
theorem reorder_objectives_spec (db : Db) (userId quizId : Nat) (ids : List Nat) (Q : Quiz)
    (hQ : db.quizzes.find? (fun z => z.id == quizId && z.createdBy == userId) = some Q)
    (hn : (db.objectives.map (fun o => o.id)).Nodup) :
    ((reorderObjectivesRoute db userId quizId ids).1.statusCode = 200 ↔
      ids.Nodup ∧ ∀ oid ∈ ids, belongsTo db quizId userId oid) ∧
    ((reorderObjectivesRoute db userId quizId ids).1.statusCode ≠ 200 →
      (reorderObjectivesRoute db userId quizId ids).2 = db) ∧
    ((reorderObjectivesRoute db userId quizId ids).1.statusCode = 200 →
      (reorderObjectivesRoute db userId quizId ids).2.objectives =
        db.objectives.map (fun o : LearningObjective =>
          if o.id ∈ ids then { o with order := ids.indexOf o.id } else o)) ∧
    ((reorderObjectivesRoute db userId quizId ids).1.statusCode = 200 →
      (∀ o ∈ db.objectives, o.quiz = quizId → o.id ∈ ids) →
      (((reorderObjectivesRoute db userId quizId ids).2.objectives.filter
          (fun o : LearningObjective => o.quiz == quizId)).map (fun o => o.order)).Perm
        (List.range ids.length)) := by
  have hiff := matched_length_iff db quizId userId ids hn
  by_cases hguard : (db.objectives.filter fun o : LearningObjective =>
      ids.contains o.id && o.quiz == quizId && o.createdBy == userId).length = ids.length
  · obtain ⟨hnd, hbel⟩ := hiff.mp hguard
    have hroute : reorderObjectivesRoute db userId quizId ids =
        (.success 200 "Learning objectives reordered successfully"
          ((reorderObjectives quizId db.objectives ids).filter
            fun o : LearningObjective => o.quiz == quizId),
         { db with objectives := reorderObjectives quizId db.objectives ids }) := by
      simp only [reorderObjectivesRoute, hQ]
      rw [if_neg (by simpa using hguard)]
    have hobjs : (reorderObjectivesRoute db userId quizId ids).2.objectives =
        db.objectives.map (fun o : LearningObjective =>
          if o.id ∈ ids then { o with order := ids.indexOf o.id } else o) := by
      rw [hroute]
      show reorderObjectives quizId db.objectives ids = _
      rw [reorderObjectives, reorderUpdates_eq ids hnd]
      simp only [Nat.zero_add]
    refine ⟨by rw [hroute]; exact ⟨fun _ => ⟨hnd, hbel⟩, fun _ => rfl⟩,
            fun hne => absurd (by rw [hroute]; rfl) hne,
            fun _ => hobjs, fun _ hcovAll => ?_⟩
    rw [hobjs]
    have hpcomp : ((fun o : LearningObjective => o.quiz == quizId) ∘
        (fun o : LearningObjective =>
          if o.id ∈ ids then { o with order := ids.indexOf o.id } else o)) =
        fun o : LearningObjective => o.quiz == quizId := by
      funext o
      by_cases h : o.id ∈ ids <;> simp [h]
    rw [List.filter_map, hpcomp, List.map_map]
    have hord : (db.objectives.filter fun o : LearningObjective => o.quiz == quizId).map
        ((fun o : LearningObjective => o.order) ∘ fun o : LearningObjective =>
          if o.id ∈ ids then { o with order := ids.indexOf o.id } else o) =
        (db.objectives.filter fun o : LearningObjective => o.quiz == quizId).map
          (fun o : LearningObjective => ids.indexOf o.id) := by
      refine List.map_congr_left fun o ho => ?_
      have hoid : o.id ∈ ids := by
        refine hcovAll o (List.mem_of_mem_filter ho) ?_
        have := List.of_mem_filter ho
        simpa using this
      simp [Function.comp, hoid]
    rw [hord]
    have hK : ((db.objectives.filter fun o : LearningObjective => o.quiz == quizId).map
        (fun o : LearningObjective => o.id)).Nodup :=
      hn.sublist ((List.filter_sublist _).map _)
    have hKperm : ((db.objectives.filter fun o : LearningObjective => o.quiz == quizId).map
        (fun o : LearningObjective => o.id)).Perm ids := by
      refine List.perm_of_nodup_nodup_toFinset_eq hK hnd ?_
      ext x
      simp only [List.mem_toFinset, List.mem_map]
      constructor
      · rintro ⟨o, ho, rfl⟩
        refine hcovAll o (List.mem_of_mem_filter ho) ?_
        have := List.of_mem_filter ho
        simpa using this
      · intro hx
        obtain ⟨o, ho, hid, hq, _⟩ := hbel x hx
        refine ⟨o, List.mem_filter.mpr ⟨ho, by simpa using hq⟩, hid⟩
    have hmapid : (db.objectives.filter fun o : LearningObjective => o.quiz == quizId).map
        (fun o : LearningObjective => ids.indexOf o.id) =
        ((db.objectives.filter fun o : LearningObjective => o.quiz == quizId).map
          (fun o : LearningObjective => o.id)).map (fun x => ids.indexOf x) := by
      rw [List.map_map]
      rfl
    rw [hmapid, ← map_indexOf_self ids hnd]
    exact hKperm.map _
  · have hroute : reorderObjectivesRoute db userId quizId ids =
        (.error 400 "INVALID_OBJECTIVES" "Some objectives not found or not owned by user",
          db) := by
      simp only [reorderObjectivesRoute, hQ]
      rw [if_pos (by simpa using hguard)]
    have hnot : ¬ (reorderObjectivesRoute db userId quizId ids).1.statusCode = 200 := by
      rw [hroute]
      simp [ApiResponse.statusCode]
    refine ⟨⟨fun hc => absurd hc hnot, fun hcond => absurd (hiff.mpr hcond) hguard⟩,
      fun _ => by rw [hroute], fun hc => absurd hc hnot, fun hc => absurd hc hnot⟩

/-- `questionSchema.statics.reorderQuestions` (`models/Question.js`
lines 235-240): for each id of `orderedIds`,
`findByIdAndUpdate(id, { order: index })`. -/
def reorderQuestionUpdates (qs : List Question) (idx : Nat) : List Nat → List Question
  | [] => qs
  | qid :: rest =>
      reorderQuestionUpdates
        (qs.map fun qq : Question => if qq.id = qid then { qq with order := idx } else qq)
        (idx + 1) rest

/-- `Question.reorderQuestions(quizId, orderedIds)`; the quiz id is not
used by the updates themselves. -/
def reorderQuestions (_quizId : Nat) (qs : List Question) (orderedIds : List Nat) :
    List Question :=
  reorderQuestionUpdates qs 0 orderedIds

/-- `PUT /api/questions/reorder` (question controller, concatenated in
`src/server.js`): after the quiz ownership check, fetch the questions
whose id is in `questionIds` and which belong to this quiz and user;
reject with 400 `INVALID_QUESTIONS` when fewer documents than ids come
back, otherwise apply `reorderQuestions` and return the quiz's
questions. -/
def reorderQuestionsRoute (db : Db) (userId quizId : Nat) (questionIds : List Nat) :
    ApiResponse (List Question) × Db :=
  match db.quizzes.find? (fun z => z.id == quizId && z.createdBy == userId) with
  | none => (notFoundResponse (List Question) "Quiz", db)
  | some _ =>
      let matched := db.questions.filter fun qq : Question =>
        questionIds.contains qq.id && qq.quiz == quizId && qq.createdBy == userId
      if matched.length ≠ questionIds.length then
        (.error 400 "INVALID_QUESTIONS" "Some questions not found or not owned by user", db)
      else
        let db1 := { db with questions := reorderQuestions quizId db.questions questionIds }
        (.success 200 "Questions reordered successfully"
          (db1.questions.filter fun qq : Question => qq.quiz == quizId), db1)

theorem reorderQuestionUpdates_eq (ids : List Nat) (h : ids.Nodup) :
    ∀ (qs : List Question) (n : Nat),
      reorderQuestionUpdates qs n ids = qs.map (fun qq : Question =>
        if qq.id ∈ ids then { qq with order := n + ids.indexOf qq.id } else qq) := by
  induction ids with
  | nil =>
      intro qs n
      simp [reorderQuestionUpdates]
  | cons a rest ih =>
      intro qs n
      simp only [List.nodup_cons] at h
      obtain ⟨ha, hrest⟩ := h
      show reorderQuestionUpdates (qs.map _) (n + 1) rest = _
      rw [ih hrest, List.map_map]
      refine List.map_congr_left fun qq _ => ?_
      by_cases h1 : qq.id = a
      · have hnr : qq.id ∉ rest := h1 ▸ ha
        simp only [Function.comp, if_pos h1]
        rw [if_neg (by simpa using hnr)]
        rw [if_pos (by simp [h1])]
        rw [h1, List.indexOf_cons_self]
        simp
      · simp only [Function.comp, if_neg h1]
        by_cases h2 : qq.id ∈ rest
        · rw [if_pos h2, if_pos (by simp [h2])]
          rw [List.indexOf_cons_ne rest (fun hcc => h1 hcc.symm)]
          have : n + 1 + List.indexOf qq.id rest = n + (List.indexOf qq.id rest).succ := by
            omega
          rw [this]
        · rw [if_neg h2, if_neg (by simp [h1, h2])]

/-- An id "belongs" to a quiz's question set for a caller when a stored
question with that id has this quiz and this creator. -/
def questionBelongsTo (db : Db) (quizId userId qid : Nat) : Prop :=
  ∃ qq ∈ db.questions, qq.id = qid ∧ qq.quiz = quizId ∧ qq.createdBy = userId

theorem matched_questions_length_iff (db : Db) (quizId userId : Nat) (ids : List Nat)
    (hn : (db.questions.map (fun qq => qq.id)).Nodup) :
    ((db.questions.filter fun qq : Question =>
        ids.contains qq.id && qq.quiz == quizId && qq.createdBy == userId).length = ids.length)
    ↔ (ids.Nodup ∧ ∀ qid ∈ ids, questionBelongsTo db quizId userId qid) := by
  classical
  set matched := db.questions.filter fun qq : Question =>
    ids.contains qq.id && qq.quiz == quizId && qq.createdBy == userId with hmdef
  have hmsub : matched.Sublist db.questions := List.filter_sublist _
  have hmIds_nodup : (matched.map (fun qq => qq.id)).Nodup :=
    hn.sublist (hmsub.map (fun qq => qq.id))
  have hsub : ∀ x ∈ matched.map (fun qq => qq.id), x ∈ ids := by
    intro x hx
    obtain ⟨qq, hq, rfl⟩ := List.mem_map.mp hx
    have hpred := List.of_mem_filter hq
    simp only [Bool.and_eq_true, beq_iff_eq] at hpred
    exact List.elem_iff.mp hpred.1.1
  have hsubF : (matched.map (fun qq => qq.id)).toFinset ⊆ ids.toFinset := by
    intro x hx
    exact List.mem_toFinset.mpr (hsub x (List.mem_toFinset.mp hx))
  constructor
  · intro hlen
    have hclen : (matched.map (fun qq => qq.id)).length = ids.length := by
      simpa using hlen
    have hcard1 : (matched.map (fun qq => qq.id)).toFinset.card = ids.length := by
      rw [List.toFinset_card_of_nodup hmIds_nodup, hclen]
    have hle : ids.length ≤ ids.toFinset.card := by
      rw [← hcard1]
      exact Finset.card_le_card hsubF
    have hge : ids.toFinset.card ≤ ids.length := List.toFinset_card_le ids
    have hcardids : ids.toFinset.card = ids.length := le_antisymm hge hle
    have hnodup_ids : ids.Nodup := by
      have hd : ids.dedup.length = ids.length := by
        rw [← List.card_toFinset]
        exact hcardids
      have hds := (List.dedup_sublist ids).eq_of_length hd
      rw [← hds]
      exact List.nodup_dedup ids
    refine ⟨hnodup_ids, ?_⟩
    have hFeq : (matched.map (fun qq => qq.id)).toFinset = ids.toFinset :=
      Finset.eq_of_subset_of_card_le hsubF (by rw [hcard1, hcardids])
    intro qid hqid
    have hmem : qid ∈ (matched.map (fun qq => qq.id)).toFinset := by
      rw [hFeq]
      exact List.mem_toFinset.mpr hqid
    obtain ⟨qq, hq, rfl⟩ := List.mem_map.mp (List.mem_toFinset.mp hmem)
    have hpred := List.of_mem_filter hq
    simp only [Bool.and_eq_true, beq_iff_eq] at hpred
    exact ⟨qq, List.mem_of_mem_filter hq, rfl, hpred.1.2, hpred.2⟩
  · rintro ⟨hnd, hcov⟩
    have hsub2 : ∀ x ∈ ids, x ∈ matched.map (fun qq => qq.id) := by
      intro qid hqid
      obtain ⟨qq, hq, hid, hquiz, hc⟩ := hcov qid hqid
      have hm : qq ∈ matched := by
        refine List.mem_filter.mpr ⟨hq, ?_⟩
        simp only [Bool.and_eq_true, beq_iff_eq]
        exact ⟨⟨List.elem_iff.mpr (hid ▸ hqid), hquiz⟩, hc⟩
      exact hid ▸ List.mem_map_of_mem (fun qq => qq.id) hm
    have hperm : (matched.map (fun qq => qq.id)).Perm ids := by
      refine List.perm_of_nodup_nodup_toFinset_eq hmIds_nodup hnd ?_
      refine Finset.Subset.antisymm hsubF ?_
      intro x hx
      exact List.mem_toFinset.mpr (hsub2 x (List.mem_toFinset.mp hx))
    have := hperm.length_eq
    simpa using this

/-- The questions half of the reorder characterisation, mirroring
`reorder_objectives_spec` for `PUT /api/questions/reorder`. -/
theorem reorder_questions_spec (db : Db) (userId quizId : Nat) (ids : List Nat) (Q : Quiz)
    (hQ : db.quizzes.find? (fun z => z.id == quizId && z.createdBy == userId) = some Q)
    (hn : (db.questions.map (fun qq => qq.id)).Nodup) :
    ((reorderQuestionsRoute db userId quizId ids).1.statusCode = 200 ↔
      ids.Nodup ∧ ∀ qid ∈ ids, questionBelongsTo db quizId userId qid) ∧
    ((reorderQuestionsRoute db userId quizId ids).1.statusCode ≠ 200 →
      (reorderQuestionsRoute db userId quizId ids).2 = db) ∧
    ((reorderQuestionsRoute db userId quizId ids).1.statusCode = 200 →
      (reorderQuestionsRoute db userId quizId ids).2.questions =
        db.questions.map (fun qq : Question =>
          if qq.id ∈ ids then { qq with order := ids.indexOf qq.id } else qq)) ∧
    ((reorderQuestionsRoute db userId quizId ids).1.statusCode = 200 →
      (∀ qq ∈ db.questions, qq.quiz = quizId → qq.id ∈ ids) →
      (((reorderQuestionsRoute db userId quizId ids).2.questions.filter
          (fun qq : Question => qq.quiz == quizId)).map (fun qq => qq.order)).Perm
        (List.range ids.length)) := by
  have hiff := matched_questions_length_iff db quizId userId ids hn
  by_cases hguard : (db.questions.filter fun qq : Question =>
      ids.contains qq.id && qq.quiz == quizId && qq.createdBy == userId).length = ids.length
  · obtain ⟨hnd, hbel⟩ := hiff.mp hguard
    have hroute : reorderQuestionsRoute db userId quizId ids =
        (.success 200 "Questions reordered successfully"
          ((reorderQuestions quizId db.questions ids).filter
            fun qq : Question => qq.quiz == quizId),
         { db with questions := reorderQuestions quizId db.questions ids }) := by
      simp only [reorderQuestionsRoute, hQ]
      rw [if_neg (by simpa using hguard)]
    have hobjs : (reorderQuestionsRoute db userId quizId ids).2.questions =
        db.questions.map (fun qq : Question =>
          if qq.id ∈ ids then { qq with order := ids.indexOf qq.id } else qq) := by
      rw [hroute]
      show reorderQuestions quizId db.questions ids = _
      rw [reorderQuestions, reorderQuestionUpdates_eq ids hnd]
      simp only [Nat.zero_add]
    refine ⟨by rw [hroute]; exact ⟨fun _ => ⟨hnd, hbel⟩, fun _ => rfl⟩,
            fun hne => absurd (by rw [hroute]; rfl) hne,
            fun _ => hobjs, fun _ hcovAll => ?_⟩
    rw [hobjs]
    have hpcomp : ((fun qq : Question => qq.quiz == quizId) ∘
        (fun qq : Question =>
          if qq.id ∈ ids then { qq with order := ids.indexOf qq.id } else qq)) =
        fun qq : Question => qq.quiz == quizId := by
      funext qq
      by_cases h : qq.id ∈ ids <;> simp [h]
    rw [List.filter_map, hpcomp, List.map_map]
    have hord : (db.questions.filter fun qq : Question => qq.quiz == quizId).map
        ((fun qq : Question => qq.order) ∘ fun qq : Question =>
          if qq.id ∈ ids then { qq with order := ids.indexOf qq.id } else qq) =
        (db.questions.filter fun qq : Question => qq.quiz == quizId).map
          (fun qq : Question => ids.indexOf qq.id) := by
      refine List.map_congr_left fun qq hq => ?_
      have hqid : qq.id ∈ ids := by
        refine hcovAll qq (List.mem_of_mem_filter hq) ?_
        have := List.of_mem_filter hq
        simpa using this
      simp [Function.comp, hqid]
    rw [hord]
    have hK : ((db.questions.filter fun qq : Question => qq.quiz == quizId).map
        (fun qq : Question => qq.id)).Nodup :=
      hn.sublist ((List.filter_sublist _).map _)
    have hKperm : ((db.questions.filter fun qq : Question => qq.quiz == quizId).map
        (fun qq : Question => qq.id)).Perm ids := by
      refine List.perm_of_nodup_nodup_toFinset_eq hK hnd ?_
      ext x
      simp only [List.mem_toFinset, List.mem_map]
      constructor
      · rintro ⟨qq, hq, rfl⟩
        refine hcovAll qq (List.mem_of_mem_filter hq) ?_
        have := List.of_mem_filter hq
        simpa using this
      · intro hx
        obtain ⟨qq, hq, hid, hquiz, _⟩ := hbel x hx
        refine ⟨qq, List.mem_filter.mpr ⟨hq, by simpa using hquiz⟩, hid⟩
    have hmapid : (db.questions.filter fun qq : Question => qq.quiz == quizId).map
        (fun qq : Question => ids.indexOf qq.id) =
        ((db.questions.filter fun qq : Question => qq.quiz == quizId).map
          (fun qq : Question => qq.id)).map (fun x => ids.indexOf x) := by
      rw [List.map_map]
      rfl
    rw [hmapid, ← map_indexOf_self ids hnd]
    exact hKperm.map _
  · have hroute : reorderQuestionsRoute db userId quizId ids =
        (.error 400 "INVALID_QUESTIONS" "Some questions not found or not owned by user",
          db) := by
      simp only [reorderQuestionsRoute, hQ]
      rw [if_pos (by simpa using hguard)]
    have hnot : ¬ (reorderQuestionsRoute db userId quizId ids).1.statusCode = 200 := by
      rw [hroute]
      simp [ApiResponse.statusCode]
    refine ⟨⟨fun hc => absurd hc hnot, fun hcond => absurd (hiff.mpr hcond) hguard⟩,
      fun _ => by rw [hroute], fun hc => absurd hc hnot, fun hc => absurd hc hnot⟩

/-- C2, amended: for both the objectives and the questions reorder
routes, given the quiz ownership check passes and stored document ids
are unique, the call succeeds exactly when the id list is duplicate-free
and every id belongs to this quiz and caller — a PROPER SUBSET of the
quiz's items is accepted; a rejected call leaves the database unchanged;
on success each listed item's `order` becomes its index in the id list
while unlisted items keep their previous `order`; consequently the
quiz's order values are exactly `{0,...,N-1}` when the id list covers
all of the quiz's items. -/
theorem c2_reorder_amended (db : Db) (userId quizId : Nat) (oids qids : List Nat) (Q : Quiz)
    (hQ : db.quizzes.find? (fun z => z.id == quizId && z.createdBy == userId) = some Q)
    (hn : (db.objectives.map (fun o => o.id)).Nodup)
    (hnq : (db.questions.map (fun qq => qq.id)).Nodup) :
    (((reorderObjectivesRoute db userId quizId oids).1.statusCode = 200 ↔
      oids.Nodup ∧ ∀ oid ∈ oids, belongsTo db quizId userId oid) ∧
    ((reorderObjectivesRoute db userId quizId oids).1.statusCode ≠ 200 →
      (reorderObjectivesRoute db userId quizId oids).2 = db) ∧
    ((reorderObjectivesRoute db userId quizId oids).1.statusCode = 200 →
      (reorderObjectivesRoute db userId quizId oids).2.objectives =
        db.objectives.map (fun o : LearningObjective =>
          if o.id ∈ oids then { o with order := oids.indexOf o.id } else o)) ∧
    ((reorderObjectivesRoute db userId quizId oids).1.statusCode = 200 →
      (∀ o ∈ db.objectives, o.quiz = quizId → o.id ∈ oids) →
      (((reorderObjectivesRoute db userId quizId oids).2.objectives.filter
          (fun o : LearningObjective => o.quiz == quizId)).map (fun o => o.order)).Perm
        (List.range oids.length))) ∧
    (((reorderQuestionsRoute db userId quizId qids).1.statusCode = 200 ↔
      qids.Nodup ∧ ∀ qid ∈ qids, questionBelongsTo db quizId userId qid) ∧
    ((reorderQuestionsRoute db userId quizId qids).1.statusCode ≠ 200 →
      (reorderQuestionsRoute db userId quizId qids).2 = db) ∧
    ((reorderQuestionsRoute db userId quizId qids).1.statusCode = 200 →
      (reorderQuestionsRoute db userId quizId qids).2.questions =
        db.questions.map (fun qq : Question =>
          if qq.id ∈ qids then { qq with order := qids.indexOf qq.id } else qq)) ∧
    ((reorderQuestionsRoute db userId quizId qids).1.statusCode = 200 →
      (∀ qq ∈ db.questions, qq.quiz = quizId → qq.id ∈ qids) →
      (((reorderQuestionsRoute db userId quizId qids).2.questions.filter
          (fun qq : Question => qq.quiz == quizId)).map (fun qq => qq.order)).Perm
        (List.range qids.length))) :=
  ⟨reorder_objectives_spec db userId quizId oids Q hQ hn,
   reorder_questions_spec db userId quizId qids Q hQ hnq⟩

/-- The database for the C2 amended witness: quiz 1 with two objectives
(orders 0, 1) and two questions (orders 0, 1). -/
def dbReorderFull : Db :=
  { dbReorder with questions := [⟨31, 1, 10, 0, 5⟩, ⟨32, 1, 11, 1, 5⟩] }

/-- Witness for C2 (amended): reordering the objectives with the full
list `[11, 10]` and the questions with the full list `[32, 31]` on the
concrete database; the characterisations hold at this input. -/
theorem c2_reorder_amended_witness :
    (((reorderObjectivesRoute dbReorderFull 5 1 [11, 10]).1.statusCode = 200 ↔
      ([11, 10] : List Nat).Nodup ∧
        ∀ oid ∈ ([11, 10] : List Nat), belongsTo dbReorderFull 1 5 oid) ∧
    ((reorderObjectivesRoute dbReorderFull 5 1 [11, 10]).1.statusCode ≠ 200 →
      (reorderObjectivesRoute dbReorderFull 5 1 [11, 10]).2 = dbReorderFull) ∧
    ((reorderObjectivesRoute dbReorderFull 5 1 [11, 10]).1.statusCode = 200 →
      (reorderObjectivesRoute dbReorderFull 5 1 [11, 10]).2.objectives =
        dbReorderFull.objectives.map (fun o : LearningObjective =>
          if o.id ∈ ([11, 10] : List Nat) then
            { o with order := ([11, 10] : List Nat).indexOf o.id } else o)) ∧
    ((reorderObjectivesRoute dbReorderFull 5 1 [11, 10]).1.statusCode = 200 →
      (∀ o ∈ dbReorderFull.objectives, o.quiz = 1 → o.id ∈ ([11, 10] : List Nat)) →
      (((reorderObjectivesRoute dbReorderFull 5 1 [11, 10]).2.objectives.filter
          (fun o : LearningObjective => o.quiz == 1)).map (fun o => o.order)).Perm
        (List.range ([11, 10] : List Nat).length))) ∧
    (((reorderQuestionsRoute dbReorderFull 5 1 [32, 31]).1.statusCode = 200 ↔
      ([32, 31] : List Nat).Nodup ∧
        ∀ qid ∈ ([32, 31] : List Nat), questionBelongsTo dbReorderFull 1 5 qid) ∧
    ((reorderQuestionsRoute dbReorderFull 5 1 [32, 31]).1.statusCode ≠ 200 →
      (reorderQuestionsRoute dbReorderFull 5 1 [32, 31]).2 = dbReorderFull) ∧
    ((reorderQuestionsRoute dbReorderFull 5 1 [32, 31]).1.statusCode = 200 →
      (reorderQuestionsRoute dbReorderFull 5 1 [32, 31]).2.questions =
        dbReorderFull.questions.map (fun qq : Question =>
          if qq.id ∈ ([32, 31] : List Nat) then
            { qq with order := ([32, 31] : List Nat).indexOf qq.id } else qq)) ∧
    ((reorderQuestionsRoute dbReorderFull 5 1 [32, 31]).1.statusCode = 200 →
      (∀ qq ∈ dbReorderFull.questions, qq.quiz = 1 → qq.id ∈ ([32, 31] : List Nat)) →
      (((reorderQuestionsRoute dbReorderFull 5 1 [32, 31]).2.questions.filter
          (fun qq : Question => qq.quiz == 1)).map (fun qq => qq.order)).Perm
        (List.range ([32, 31] : List Nat).length))) :=
  c2_reorder_amended dbReorderFull 5 1 [11, 10] [32, 31] { freshQuiz with id := 1 }
    (by rfl) (by decide) (by decide)

/-- `DELETE /api/objectives/:id` (`objectiveController.js` lines
333-356): find the objective by id and owner (else 404); remove it from
its quiz (which re-derives progress); `deleteMany` the questions
referencing it; delete the objective document.  Note the quiz's
`questions` reference array is never touched. -/
def deleteObjectiveRoute (db : Db) (userId objectiveId : Nat) : ApiResponse Unit × Db :=
  match db.objectives.find? (fun o => o.id == objectiveId && o.createdBy == userId) with
  | none => (notFoundResponse Unit "Learning objective", db)
  | some obj =>
      let db1 :=
        match db.quizzes.find? (fun z => z.id == obj.quiz) with
        | some _ => { db with
            quizzes := db.quizzes.map fun z : Quiz =>
              if z.id == obj.quiz then z.removeLearningObjective objectiveId else z }
        | none => db
      let db2 := { db1 with
        questions := db1.questions.filter fun qq : Question =>
          !(qq.learningObjective == objectiveId) }
      let db3 := { db2 with
        objectives := db2.objectives.filter fun o : LearningObjective =>
          !(o.id == objectiveId) }
      (.success 200 "Learning objective deleted successfully" (), db3)

/-- Quiz 1 holding one objective and three question references, its
progress derived from them. -/
def quizWithQuestions : Quiz :=
  { freshQuiz with
    id := 1
    learningObjectives := [10]
    questions := [21, 22, 23]
    progress :=
      { materialsAssigned := false, objectivesSet := true, planGenerated := false
        planApproved := true, questionsGenerated := true, reviewCompleted := false }
    status := .completed }

/-- The database for the C6 failing input: objective 10 of quiz 1 with
its three questions. -/
def dbCascade : Db :=
  { quizzes := [quizWithQuestions], folders := [], materials := []
    objectives := [{ objA with id := 10 }]
    questions := [⟨21, 1, 10, 0, 5⟩, ⟨22, 1, 10, 1, 5⟩, ⟨23, 1, 10, 2, 5⟩]
    plans := [], storedFiles := [], nextId := 100 }

/-- C6: deleting objective 10 (which all three questions reference)
succeeds, deletes the objective, deletes all three question documents
(none remain for quiz 1) and detaches the objective from the quiz — but
the quiz keeps the three stale question references, so
`progress.questionsGenerated` remains `true` although no questions
remain, where the claim requires it to become `false`. -/
theorem c6_delete_objective_stale_flag :
    (deleteObjectiveRoute dbCascade 5 10).1.statusCode = 200 ∧
    (deleteObjectiveRoute dbCascade 5 10).2.objectives = [] ∧
    ((deleteObjectiveRoute dbCascade 5 10).2.questions.filter
      (fun qq : Question => qq.quiz == 1)) = [] ∧
    (∀ z ∈ (deleteObjectiveRoute dbCascade 5 10).2.quizzes,
      z.learningObjectives = [] ∧ z.questions = [21, 22, 23] ∧
        z.progress.questionsGenerated = true ∧ z.status = QuizStatus.completed) := by
  refine ⟨rfl, rfl, rfl, ?_⟩
  intro z hz
  fin_cases hz
  exact ⟨rfl, rfl, rfl, rfl⟩

/-- A multer upload: original filename, stored path, size, mime type and
raw bytes (as a string).  The checksum is the hash collaborator applied
to the bytes. -/
structure UploadedFile where
  originalname : String
  path : String
  size : Nat
  mimetype : String
  content : String
deriving DecidableEq, Repr

/-- `FileService.getFileType`: the `ALLOWED_MIME_TYPES` lookup with
`unknown` fallback. -/
def getFileType (mimetype : String) : String :=
  if mimetype = "application/pdf" then "pdf"
  else if mimetype = "application/vnd.openxmlformats-officedocument.wordprocessingml.document"
    then "docx"
  else if mimetype = "application/msword" then "doc"
  else if mimetype = "text/plain" then "txt"
  else "unknown"

/-- `POST /api/materials/text` (`objectiveController.js` materials
section): validate, check folder ownership, md5 the raw content, reject
with 409 `DUPLICATE_CONTENT` when a material with that checksum exists
in the folder, otherwise create the material and attach it to the
folder.  `hashFn` is the external md5 collaborator. -/
def textMaterialRoute (hashFn : String → String) (db : Db) (userId : Nat)
    (name content : String) (folderId : Nat) : ApiResponse Material × Db :=
  if name = "" ∨ content = "" then
    (.error 400 "VALIDATION_ERROR" "Name, content, and folder ID are required", db)
  else
    match db.folders.find? (fun f => f.id == folderId && f.instructor == userId) with
    | none => (notFoundResponse Material "Folder", db)
    | some _ =>
        let checksum := hashFn content
        if db.materials.any (fun m => m.checksum == some checksum && m.folder == folderId) then
          (.error 409 "DUPLICATE_CONTENT" "Text content already exists in this folder", db)
        else
          let material : Material :=
            { id := db.nextId, name := name.trim, mtype := "text", folder := folderId
              uploadedBy := userId, checksum := some checksum, content := some content.trim
              filePath := none, fileSize := content.utf8ByteSize
              processingStatus := "completed" }
          (.success 201 "Text material created successfully" material,
            { db with
              materials := db.materials ++ [material]
              folders := db.folders.map fun f : Folder =>
                if f.id == folderId then f.addMaterial material.id else f
              nextId := db.nextId + 1 })

/-- The per-file loop of `POST /api/materials/upload`: for each file,
compute the checksum; on a duplicate in the folder, delete the uploaded
file (discard its bytes) and record a per-file error; otherwise create
the material and attach it to the folder.  Returns the final state with
the success and failure counts.  (Custom display names are omitted; the
material name is the original filename.) -/
def processUploadFiles (hashFn : String → String) (folderId userId : Nat) :
    Db → List UploadedFile → Nat → Nat → Db × Nat × Nat
  | db, [], succ, fail => (db, succ, fail)
  | db, file :: rest, succ, fail =>
      let checksum := hashFn file.content
      if db.materials.any (fun m => m.checksum == some checksum && m.folder == folderId) then
        processUploadFiles hashFn folderId userId
          { db with storedFiles := db.storedFiles.erase file.path } rest succ (fail + 1)
      else
        let material : Material :=
          { id := db.nextId, name := file.originalname, mtype := getFileType file.mimetype
            folder := folderId, uploadedBy := userId, checksum := some checksum
            content := none, filePath := some file.path, fileSize := file.size
            processingStatus := "pending" }
        processUploadFiles hashFn folderId userId
          { db with
            materials := db.materials ++ [material]
            folders := db.folders.map fun f : Folder =>
              if f.id == folderId then f.addMaterial material.id else f
            nextId := db.nextId + 1 }
          rest (succ + 1) fail

/-- `POST /api/materials/upload` (`objectiveController.js` materials
section).  Note the overall response is `successResponse` with status
201 when at least one file was stored and 400 (`BAD_REQUEST`) otherwise
— duplicates surface only as per-file error entries, never as a 409. -/
def uploadMaterialsRoute (hashFn : String → String) (db : Db) (userId folderId : Nat)
    (files : List UploadedFile) : ApiResponse (Nat × Nat) × Db :=
  if files.isEmpty then (.error 400 "NO_FILES" "No files uploaded", db)
  else
    match db.folders.find? (fun f => f.id == folderId && f.instructor == userId) with
    | none => (notFoundResponse (Nat × Nat) "Folder", db)
    | some _ =>
        let result := processUploadFiles hashFn folderId userId db files 0 0
        let succ := result.2.1
        let fail := result.2.2
        if succ > 0 then
          (.success 201 (toString succ ++ " materials uploaded successfully") (succ, fail),
            result.1)
        else
          (.success 400 "No materials were uploaded" (succ, fail), result.1)

/-- The folder holding an existing material with checksum `dup`. -/
def dupFolder : Folder :=
  { id := 1, name := "CS101", instructor := 5, materials := [50], quizzes := []
    stats := { totalQuizzes := 0, totalQuestions := 0, totalMaterials := 1 } }

/-- The already-stored material with checksum `dup`. -/
def dupMaterial : Material :=
  { id := 50, name := "Notes", mtype := "text", folder := 1, uploadedBy := 5
    checksum := some "lecture notes", content := some "lecture notes", filePath := none
    fileSize := 13, processingStatus := "completed" }

/-- Database with the duplicate already present and the new upload's
bytes stored at path `up1`. -/
def dbDup : Db :=
  { quizzes := [], folders := [dupFolder], materials := [dupMaterial], objectives := []
    questions := [], plans := [], storedFiles := ["up1"], nextId := 100 }

/-- The uploaded file whose content hashes to the existing checksum. -/
def dupFile : UploadedFile :=
  { originalname := "notes.pdf", path := "up1", size := 13
    mimetype := "application/pdf", content := "lecture notes" }

/-- C7, counterexample: uploading a file whose checksum already exists
in the folder is rejected — no record is created and the stored bytes
are discarded — but the response is a success-shaped body with overall
status 400 (`BAD_REQUEST`), not the 409 Conflict the claim requires.
(The identity function stands in for the external md5.) -/
theorem c7_upload_duplicate_counterexample :
    (uploadMaterialsRoute (fun s => s) dbDup 5 1 [dupFile]).1.statusCode = 400 ∧
    (uploadMaterialsRoute (fun s => s) dbDup 5 1 [dupFile]).1.statusCode ≠ 409 ∧
    (uploadMaterialsRoute (fun s => s) dbDup 5 1 [dupFile]).1 =
      ApiResponse.success 400 "No materials were uploaded" (0, 1) ∧
    (uploadMaterialsRoute (fun s => s) dbDup 5 1 [dupFile]).2.materials = dbDup.materials ∧
    (uploadMaterialsRoute (fun s => s) dbDup 5 1 [dupFile]).2.storedFiles = [] := by
  refine ⟨rfl, by decide, rfl, rfl, rfl⟩

/-- C7, amended: inserting a material whose content checksum already
exists in the folder is always rejected with no new record; for text
materials the rejection is a 409 Conflict (`DUPLICATE_CONTENT`) leaving
the state unchanged; for a file upload the duplicate is skipped with a
per-file error, its stored bytes are discarded, and a lone duplicate
yields overall status 400, not 409. -/
theorem c7_duplicate_checksum_rejected (hashFn : String → String) (db : Db)
    (userId folderId : Nat) (name content : String) (file : UploadedFile) (folder : Folder)
    (hf : db.folders.find? (fun f => f.id == folderId && f.instructor == userId) = some folder)
    (hname : name ≠ "") (hcontent : content ≠ "")
    (hdupText : db.materials.any
      (fun m => m.checksum == some (hashFn content) && m.folder == folderId) = true)
    (hdupFile : db.materials.any
      (fun m => m.checksum == some (hashFn file.content) && m.folder == folderId) = true) :
    textMaterialRoute hashFn db userId name content folderId =
      (.error 409 "DUPLICATE_CONTENT" "Text content already exists in this folder", db) ∧
    uploadMaterialsRoute hashFn db userId folderId [file] =
      (.success 400 "No materials were uploaded" (0, 1),
        { db with storedFiles := db.storedFiles.erase file.path }) := by
  constructor
  · rw [textMaterialRoute, if_neg (by tauto)]
    simp only [hf]
    rw [if_pos hdupText]
  · rw [uploadMaterialsRoute, if_neg (by simp)]
    simp only [hf]
    show (if _ > 0 then _ else _) = _
    rw [processUploadFiles, if_pos hdupFile]
    rfl

/-- Witness for C7 (amended) on the concrete duplicate database, with
the identity function standing in for md5. -/
theorem c7_duplicate_checksum_rejected_witness :
    textMaterialRoute (fun s => s) dbDup 5 "Notes again" "lecture notes" 1 =
      (.error 409 "DUPLICATE_CONTENT" "Text content already exists in this folder", dbDup) ∧
    uploadMaterialsRoute (fun s => s) dbDup 5 1 [dupFile] =
      (.success 400 "No materials were uploaded" (0, 1),
        { dbDup with storedFiles := dbDup.storedFiles.erase dupFile.path }) :=
  c7_duplicate_checksum_rejected (fun s => s) dbDup 5 1 "Notes again" "lecture notes"
    dupFile dupFolder (by rfl) (by decide) (by decide) (by decide) (by decide)

/-- `GET /api/quizzes/:id` (`quizController.js` lines 88-119): one
`findOne` filtered on both id and owner; a missing document and a
document owned by someone else take the same branch. -/
def getQuizRoute (db : Db) (userId quizId : Nat) : ApiResponse Quiz :=
  match db.quizzes.find? (fun z => z.id == quizId && z.createdBy == userId) with
  | none => notFoundResponse Quiz "Quiz"
  | some z => .success 200 "Quiz retrieved successfully" z

/-- `DELETE /api/folders/:id` (`folderController.js` lines 135-158):
ownership-filtered lookup, then the emptiness guard, then deletion. -/
def deleteFolderRoute (db : Db) (userId folderId : Nat) : ApiResponse Unit × Db :=
  match db.folders.find? (fun f => f.id == folderId && f.instructor == userId) with
  | none => (notFoundResponse Unit "Folder", db)
  | some f =>
      if f.materials.length > 0 ∨ f.quizzes.length > 0 then
        (.error 400 "FOLDER_NOT_EMPTY"
          "Cannot delete folder with existing materials or quizzes. Please remove them first.",
          db)
      else
        (.success 200 "Folder deleted successfully" (),
          { db with folders := db.folders.filter fun f2 : Folder => !(f2.id == folderId) })

/-- `PUT /api/objectives/:id` (`objectiveController.js` lines 308-327):
ownership-filtered lookup, then optional text edit (recorded in the
edit history) and optional order change. -/
def updateObjectiveRoute (db : Db) (userId objectiveId : Nat) (text : Option String)
    (order : Option Nat) : ApiResponse LearningObjective × Db :=
  match db.objectives.find? (fun o => o.id == objectiveId && o.createdBy == userId) with
  | none => (notFoundResponse LearningObjective "Learning objective", db)
  | some obj =>
      let obj1 :=
        match text with
        | some t => if t ≠ "" ∧ t.trim ≠ obj.text then obj.updateText t.trim userId else obj
        | none => obj
      let obj2 :=
        match order with
        | some n => if n ≠ obj1.order then obj1.reorder n else obj1
        | none => obj1
      (.success 200 "Learning objective updated successfully" obj2,
        { db with
          objectives := db.objectives.map fun o : LearningObjective =>
            if o.id == objectiveId then obj2 else o })

/-- C8: whenever no stored quiz / folder / objective with the requested
id is owned by the caller — whether because the entity does not exist or
because it belongs to another user — the three lookup-guarded routes
return the very same `NotFound` response (and leave the state
unchanged), so the two causes are indistinguishable to the caller. -/
theorem c8_not_owned_indistinguishable (dbA dbB : Db) (userId qid fid oid : Nat)
    (t : Option String) (ord : Option Nat)
    (hqA : ∀ z ∈ dbA.quizzes, z.id = qid → z.createdBy ≠ userId)
    (hqB : ∀ z ∈ dbB.quizzes, z.id = qid → z.createdBy ≠ userId)
    (hfA : ∀ f ∈ dbA.folders, f.id = fid → f.instructor ≠ userId)
    (hfB : ∀ f ∈ dbB.folders, f.id = fid → f.instructor ≠ userId)
    (hoA : ∀ o ∈ dbA.objectives, o.id = oid → o.createdBy ≠ userId)
    (hoB : ∀ o ∈ dbB.objectives, o.id = oid → o.createdBy ≠ userId) :
    getQuizRoute dbA userId qid = getQuizRoute dbB userId qid ∧
    getQuizRoute dbA userId qid = notFoundResponse Quiz "Quiz" ∧
    (deleteFolderRoute dbA userId fid).1 = (deleteFolderRoute dbB userId fid).1 ∧
    (deleteFolderRoute dbA userId fid).1 = notFoundResponse Unit "Folder" ∧
    (deleteFolderRoute dbA userId fid).2 = dbA ∧
    (updateObjectiveRoute dbA userId oid t ord).1 =
      (updateObjectiveRoute dbB userId oid t ord).1 ∧
    (updateObjectiveRoute dbA userId oid t ord).1 =
      notFoundResponse LearningObjective "Learning objective" ∧
    (updateObjectiveRoute dbA userId oid t ord).2 = dbA := by
  have hq : ∀ db : Db, (∀ z ∈ db.quizzes, z.id = qid → z.createdBy ≠ userId) →
      db.quizzes.find? (fun z => z.id == qid && z.createdBy == userId) = none := by
    intro db h
    refine List.find?_eq_none.mpr fun z hz => ?_
    simp only [Bool.and_eq_true, beq_iff_eq, not_and]
    exact h z hz
  have hf : ∀ db : Db, (∀ f ∈ db.folders, f.id = fid → f.instructor ≠ userId) →
      db.folders.find? (fun f => f.id == fid && f.instructor == userId) = none := by
    intro db h
    refine List.find?_eq_none.mpr fun f hfm => ?_
    simp only [Bool.and_eq_true, beq_iff_eq, not_and]
    exact h f hfm
  have ho : ∀ db : Db, (∀ o ∈ db.objectives, o.id = oid → o.createdBy ≠ userId) →
      db.objectives.find? (fun o => o.id == oid && o.createdBy == userId) = none := by
    intro db h
    refine List.find?_eq_none.mpr fun o hom => ?_
    simp only [Bool.and_eq_true, beq_iff_eq, not_and]
    exact h o hom
  refine ⟨?_, ?_, ?_, ?_, ?_, ?_, ?_, ?_⟩ <;>
    simp only [getQuizRoute, deleteFolderRoute, updateObjectiveRoute,
      hq dbA hqA, hq dbB hqB, hf dbA hfA, hf dbB hfB, ho dbA hoA, ho dbB hoB]

/-- A database whose only quiz, folder and objective belong to user 9. -/
def dbOtherUser : Db :=
  { quizzes := [{ freshQuiz with id := 3, createdBy := 9 }]
    folders := [{ id := 4, name := "Other folder", instructor := 9, materials := []
                  quizzes := []
                  stats := { totalQuizzes := 0, totalQuestions := 0, totalMaterials := 0 } }]
    materials := [], objectives := [{ objA with id := 6, createdBy := 9 }]
    questions := [], plans := [], storedFiles := [], nextId := 100 }

/-- A database with no documents at all. -/
def dbEmpty : Db :=
  { quizzes := [], folders := [], materials := [], objectives := [], questions := []
    plans := [], storedFiles := [], nextId := 100 }

/-- Witness for C8: user 5 requesting user 9's quiz 3, folder 4 and
objective 6 gets responses identical to requesting them against an
empty database. -/
theorem c8_not_owned_indistinguishable_witness :
    getQuizRoute dbOtherUser 5 3 = getQuizRoute dbEmpty 5 3 ∧
    getQuizRoute dbOtherUser 5 3 = notFoundResponse Quiz "Quiz" ∧
    (deleteFolderRoute dbOtherUser 5 4).1 = (deleteFolderRoute dbEmpty 5 4).1 ∧
    (deleteFolderRoute dbOtherUser 5 4).1 = notFoundResponse Unit "Folder" ∧
    (deleteFolderRoute dbOtherUser 5 4).2 = dbOtherUser ∧
    (updateObjectiveRoute dbOtherUser 5 6 (some "New text") (some 2)).1 =
      (updateObjectiveRoute dbEmpty 5 6 (some "New text") (some 2)).1 ∧
    (updateObjectiveRoute dbOtherUser 5 6 (some "New text") (some 2)).1 =
      notFoundResponse LearningObjective "Learning objective" ∧
    (updateObjectiveRoute dbOtherUser 5 6 (some "New text") (some 2)).2 = dbOtherUser :=
  c8_not_owned_indistinguishable dbOtherUser dbEmpty 5 3 4 6 (some "New text") (some 2)
    (by decide) (by decide) (by decide) (by decide) (by decide) (by decide)
